import Mathlib

/-!
Shallow embedding of the `nest-base` repository: a pair of boilerplate
web-API templates (NestJS + TypeORM under `src/` and `nest-boiler/`, and
Express + Sequelize under `express-ts-boilerplate/`) providing CRUD user
management, JWT authentication and role-based access control.

The embedding translates the TypeScript sources into executable Lean
definitions: ORM stores become lists of user records, services become
functions from state to `Except`-wrapped results (thrown HTTP exceptions
become `Except.error`), and JSON response bodies become a small inductive
value type.  Library calls that live outside the repository (bcrypt,
jsonwebtoken) are passed in as function parameters.
-/

namespace NestBase

/-! ### JSON-like values, used for response bodies -/

/-- A JSON value, used to model serialized response bodies.  Object fields
are kept as an ordered association list, matching the insertion order of
the TypeScript object literals they model. -/
inductive JVal where
  | null
  | bool (b : Bool)
  | num (n : Int)
  | str (s : String)
  | arr (elems : List JVal)
  | obj (fields : List (String × JVal))

/-- Keys of a JSON object (empty for non-objects). -/
def JVal.objKeys : JVal → List String
  | .obj fields => fields.map Prod.fst
  | _ => []

/-- Model of the JavaScript `hasOwnProperty` test as used on handler
payloads by the response interceptor. -/
def JVal.hasProp (j : JVal) (k : String) : Bool :=
  match j with
  | .obj fields => fields.any (fun kv => kv.1 = k)
  | _ => false

/-- Model of JavaScript property access `j?.k` (first binding wins,
`none` for a missing key or a non-object). -/
def JVal.getProp (j : JVal) (k : String) : Option JVal :=
  match j with
  | .obj fields => (fields.find? (fun kv => kv.1 = k)).map Prod.snd
  | _ => none

/-- JavaScript truthiness of a JSON value. -/
def JVal.truthy : JVal → Bool
  | .null => false
  | .bool b => b
  | .num n => n != 0
  | .str s => s != ""
  | .arr _ => true
  | .obj _ => true

/-! ### HTTP exceptions

The NestJS services throw `BadRequestException`, `UnauthorizedException`,
`ForbiddenException`, `NotFoundException` and `ConflictException`; the
Express template throws `AppError(message, statusCode)` with the same
status codes, plus `DatabaseError`, an `AppError` subclass with status
500 used by the repository for unique-constraint violations.  All are
modelled by one inductive type. -/

/-- An HTTP exception thrown by a service or guard, carrying its message. -/
inductive HttpError where
  | badRequest (message : String)
  | unauthorized (message : String)
  | forbidden (message : String)
  | notFound (message : String)
  | conflict (message : String)
  | internalError (message : String)
deriving DecidableEq, Repr

/-- HTTP status code carried by an exception. -/
def HttpError.status : HttpError → Nat
  | .badRequest _ => 400
  | .unauthorized _ => 401
  | .forbidden _ => 403
  | .notFound _ => 404
  | .conflict _ => 409
  | .internalError _ => 500

/-- An error escaping a NestJS service call: a thrown HTTP exception, or
a database driver error (TypeORM `QueryFailedError`, which carries no
HTTP status and which the global filter maps to 500). -/
inductive ServiceError where
  | http (e : HttpError)
  | queryFailed (message : String)
deriving DecidableEq, Repr

/-- Driver message of a violation of the UQ_users_email constraint, the
UNIQUE ("email") constraint of the CreateUsersTable migration (also
declared as unique on the entity column).  It spans every stored row,
soft-deleted rows included. -/
def uniqueViolationMessage : String :=
  "duplicate key value violates unique constraint \x22UQ_users_email\x22"

/-! ### NestJS template: data model (`user.entity.ts`, `base.entity.ts`) -/

namespace Nest

/-- The `UserRole` enum of `user.entity.ts`: ADMIN = admin, USER = user,
MANAGER = manager. -/
inductive UserRole where
  | admin
  | user
  | manager
deriving DecidableEq, Repr

/-- String value of a `UserRole` enum member. -/
def UserRole.str : UserRole → String
  | .admin => "admin"
  | .user => "user"
  | .manager => "manager"

/-- The `User` entity: `BaseEntity` fields (id, createdAt, updatedAt,
deletedAt, version) plus the columns declared in `user.entity.ts`.
UUIDs and timestamps are modelled as naturals. -/
structure User where
  id : Nat
  firstName : String
  lastName : String
  email : String
  password : String
  role : UserRole
  isActive : Bool
  lastLoginAt : Option Nat
  createdAt : Nat
  updatedAt : Nat
  deletedAt : Option Nat
  version : Nat
deriving DecidableEq, Repr

end Nest

/-! ### NestJS template: roles guard (`roles.guard.ts`) -/

/-- The authenticated principal attached to a request by the JWT strategy:
the decoded token carries the user id and role (role compared as a string
against the decorator metadata). -/
structure RequestUser where
  id : Nat
  role : String
deriving DecidableEq, Repr

/-- Error message built by `RolesGuard` when the role check fails. -/
def rolesGuardDeniedMessage (requiredRoles : List String) : String :=
  "Access denied. Required roles: " ++ String.intercalate ", " requiredRoles

/-- Model of `RolesGuard.canActivate`: reads the role list attached by the
`@Roles` decorator (`none` when the handler carries no metadata), allows
the request when the list is absent or empty, requires an authenticated
user otherwise, and finally tests whether the user role matches any
required role.  A thrown `ForbiddenException` is an `Except.error`. -/
def rolesGuardCanActivate (requiredRoles : Option (List String))
    (user : Option RequestUser) : Except HttpError Bool :=
  match requiredRoles with
  | none => .ok true
  | some roles =>
    if roles.length = 0 then .ok true
    else
      match user with
      | none => .error (.forbidden "User not authenticated")
      | some u =>
        if roles.any (fun r => u.role = r) then .ok true
        else .error (.forbidden (rolesGuardDeniedMessage roles))

/-- A guard composed with a route handler: the handler body runs only
when the guard returned `ok true`; a thrown exception short-circuits. -/
def runGuarded {ρ : Type} (guard : Except HttpError Bool)
    (handler : Unit → ρ) : Except HttpError ρ :=
  match guard with
  | .error e => .error e
  | .ok true => .ok (handler ())
  | .ok false => .error (.forbidden "Forbidden resource")

/-! ### Express template: data model (`user.model.ts`) -/

namespace Xp

/-- The role column of the Sequelize `User` model:
`DataType.ENUM(admin, user)` with default value user. -/
inductive Role where
  | admin
  | user
deriving DecidableEq, Repr

/-- String value of an Express role. -/
def Role.str : Role → String
  | .admin => "admin"
  | .user => "user"

/-- The Sequelize `User` model: BaseModel fields (id, createdAt,
updatedAt, deletedAt from `paranoid: true`) plus the declared columns. -/
structure User where
  id : Nat
  email : String
  password : String
  firstName : String
  lastName : String
  isActive : Bool
  role : Role
  createdAt : Nat
  updatedAt : Nat
  deletedAt : Option Nat
deriving DecidableEq, Repr

/-- Decoded JWT payload attached to `req.user` by the middleware. -/
structure TokenData where
  id : Nat
  role : String
deriving DecidableEq, Repr

/-- Model of `User.findByPk` on a paranoid table: looks the id up among rows whose
soft-delete marker is unset. -/
def findByPk (db : List User) (id : Nat) : Option User :=
  (db.filter (fun u => u.deletedAt = none)).find? (fun u => u.id = id)

/-- Error body message used by `roleRequired` on authorization failure. -/
def notAuthorizedMessage : String :=
  "You are not authorized to perform this action."

/-- Model of `roleRequired(role)` middleware of `jwtAuth.middleware.ts`, after
bearer-token parsing: `none` token data models a missing/invalid token
(401); otherwise the user is loaded via `findByPk` and must exist and
hold exactly the required role, else 403. -/
def roleRequired (role : Role) (db : List User)
    (tokenData : Option TokenData) : Except HttpError TokenData :=
  match tokenData with
  | none => .error (.unauthorized "Auth Token is missing or invalid")
  | some td =>
    match findByPk db td.id with
    | none => .error (.forbidden notAuthorizedMessage)
    | some u =>
      if u.role = role then .ok td
      else .error (.forbidden notAuthorizedMessage)

end Xp

/-! ### NestJS template: users service (`users.service.ts`) -/

namespace Nest

/-- Model of `CreateUserDto`: firstName, lastName, email, password required; role
optional (enum-validated). -/
structure CreateUserDto where
  firstName : String
  lastName : String
  email : String
  password : String
  role : Option UserRole
deriving DecidableEq, Repr

/-- Model of `UpdateUserDto`: `PartialType(CreateUserDto)` plus an optional
`isActive` flag. -/
structure UpdateUserDto where
  firstName : Option String
  lastName : Option String
  email : Option String
  password : Option String
  role : Option UserRole
  isActive : Option Bool
deriving DecidableEq, Repr

/-- State of the users table, together with the generator used for fresh
UUIDs (`nextId` stands for the next generated primary key). -/
structure ServiceState where
  users : List User
  nextId : Nat
deriving DecidableEq, Repr

/-- The empty users table. -/
def ServiceState.empty : ServiceState := { users := [], nextId := 0 }

/-- Rows visible to TypeORM find operations: soft-deleted rows (those
with a set `deletedAt` marker) are filtered out by default. -/
def activeUsers (s : ServiceState) : List User :=
  s.users.filter (fun u => u.deletedAt = none)

/-- Model of `usersRepository.findOne` by email: first visible row
with the given email. -/
def findOneByEmail (s : ServiceState) (email : String) : Option User :=
  (activeUsers s).find? (fun u => u.email = email)

/-- Model of `usersRepository.findOne` by id: first visible row with
the given id. -/
def findOneById (s : ServiceState) (id : Nat) : Option User :=
  (activeUsers s).find? (fun u => u.id = id)

/-- Model of `UsersService.findOne`: looks the id up and throws a 404
`NotFoundException` when no visible row matches. -/
def findOne (s : ServiceState) (id : Nat) : Except HttpError User :=
  match findOneById s id with
  | none => .error (.notFound ("User with ID " ++ toString id ++ " not found"))
  | some u => .ok u

/-- Model of `UsersService.create`: rejects with a 409 `ConflictException` when a
visible row already holds the requested email, otherwise hashes the
password (`hash` stands for bcrypt with 10 salt rounds), fills the column
defaults (role user, isActive true, version 1) and saves.  The save is an
INSERT subject to the UQ_users_email unique constraint, which spans
soft-deleted rows: when any stored row holds the email, the insert throws
a `QueryFailedError` instead of storing anything.  `now` stands for the
database timestamp. -/
def create (hash : String → String) (now : Nat) (dto : CreateUserDto)
    (s : ServiceState) : Except ServiceError (ServiceState × User) :=
  match findOneByEmail s dto.email with
  | some _ => .error (.http (.conflict "Email already exists"))
  | none =>
    let u : User :=
      { id := s.nextId
        firstName := dto.firstName
        lastName := dto.lastName
        email := dto.email
        password := hash dto.password
        role := dto.role.getD .user
        isActive := true
        lastLoginAt := none
        createdAt := now
        updatedAt := now
        deletedAt := none
        version := 1 }
    if s.users.any (fun v => v.email = dto.email) then
      .error (.queryFailed uniqueViolationMessage)
    else
      .ok ({ users := s.users ++ [u], nextId := s.nextId + 1 }, u)

/-- Model of `Object.assign(user, updateUserDto)` with the password hashed first
when present: every field carried by the DTO overwrites the entity
field. -/
def applyUpdate (hash : String → String) (dto : UpdateUserDto) (u : User) : User :=
  { u with
    firstName := dto.firstName.getD u.firstName
    lastName := dto.lastName.getD u.lastName
    email := dto.email.getD u.email
    password := (dto.password.map hash).getD u.password
    role := dto.role.getD u.role
    isActive := dto.isActive.getD u.isActive }

/-- Model of `usersRepository.save(user)` for an already-persisted entity: the row
with the same primary key is overwritten. -/
def saveReplace (s : ServiceState) (u : User) : ServiceState :=
  { s with users := s.users.map (fun v => if v.id = u.id then u else v) }

/-- Model of `UsersService.update`: loads the user (404 when absent), rejects with
a 409 `ConflictException` when the DTO changes the email to one held by a
visible row, otherwise assigns the DTO fields and saves.  The save is an
UPDATE subject to the UQ_users_email unique constraint over the other
stored rows, soft-deleted rows included: a colliding email throws a
`QueryFailedError` instead of storing anything. -/
def update (hash : String → String) (id : Nat) (dto : UpdateUserDto)
    (s : ServiceState) : Except ServiceError (ServiceState × User) :=
  match findOne s id with
  | .error e => .error (.http e)
  | .ok u =>
    let emailConflict :=
      match dto.email with
      | some e => if e ≠ u.email then (findOneByEmail s e).isSome else false
      | none => false
    if emailConflict then .error (.http (.conflict "Email already exists"))
    else
      let u' := applyUpdate hash dto u
      if s.users.any (fun v => v.id ≠ u'.id && v.email = u'.email) then
        .error (.queryFailed uniqueViolationMessage)
      else
        .ok (saveReplace s u', u')

/-- Model of `UsersService.remove`: loads the user (404 when absent) and calls
`softRemove`, which stamps the soft-delete marker on that row. -/
def remove (now : Nat) (id : Nat) (s : ServiceState) :
    Except HttpError ServiceState :=
  match findOne s id with
  | .error e => .error e
  | .ok u =>
    .ok { s with
          users := s.users.map
            (fun v => if v.id = u.id then { v with deletedAt := some now } else v) }

/-- One CRUD request against the users service. -/
inductive Op where
  | createOp (dto : CreateUserDto)
  | updateOp (id : Nat) (dto : UpdateUserDto)
  | removeOp (id : Nat)
deriving DecidableEq, Repr

/-- State after one request: a thrown exception rolls nothing forward, so
the store is left as it was. -/
def step (hash : String → String) (now : Nat) (op : Op)
    (s : ServiceState) : ServiceState :=
  match op with
  | .createOp dto =>
    match create hash now dto s with
    | .ok (s', _) => s'
    | .error _ => s
  | .updateOp id dto =>
    match update hash id dto s with
    | .ok (s', _) => s'
    | .error _ => s
  | .removeOp id =>
    match remove now id s with
    | .ok s' => s'
    | .error _ => s

/-- State after a sequence of requests. -/
def run (hash : String → String) (now : Nat) (ops : List Op)
    (s : ServiceState) : ServiceState :=
  ops.foldl (fun acc op => step hash now op acc) s

/-- Emails of the rows visible to find operations. -/
def activeEmails (s : ServiceState) : List String :=
  (activeUsers s).map User.email

/-- Model of `LoginDto`: email and password. -/
structure LoginDto where
  email : String
  password : String
deriving DecidableEq, Repr

/-- Model of `JwtPayload` built by `AuthService.generateAuthResponse`: subject is
the user id, plus email and role. -/
structure JwtPayload where
  sub : Nat
  email : String
  role : UserRole
deriving DecidableEq, Repr

/-- Raw column values of a stored user row, as key ordered fields. -/
def userRawFields (u : User) : List (String × JVal) :=
  [("id", .num u.id),
   ("firstName", .str u.firstName),
   ("lastName", .str u.lastName),
   ("email", .str u.email),
   ("password", .str u.password),
   ("role", .str u.role.str),
   ("isActive", .bool u.isActive),
   ("lastLoginAt", match u.lastLoginAt with | some t => .num t | none => .null),
   ("createdAt", .num u.createdAt),
   ("updatedAt", .num u.updatedAt),
   ("deletedAt", match u.deletedAt with | some t => .num t | none => .null),
   ("version", .num u.version)]

/-- Model of `plainToInstance(UserResponseDto, user, excludeExtraneousValues)`:
only the fields marked `@Expose` in `user-response.dto.ts` survive
(id, firstName, lastName, email, role, isActive, lastLoginAt, createdAt,
updatedAt); password, deletedAt and version are dropped. -/
def userResponseFields (u : User) : List (String × JVal) :=
  [("id", .num u.id),
   ("firstName", .str u.firstName),
   ("lastName", .str u.lastName),
   ("email", .str u.email),
   ("role", .str u.role.str),
   ("isActive", .bool u.isActive),
   ("lastLoginAt", match u.lastLoginAt with | some t => .num t | none => .null),
   ("createdAt", .num u.createdAt),
   ("updatedAt", .num u.updatedAt)]

/-- Model of `AuthResponseDto`: the signed access token, the fixed token type, the
configured expiry, and the serialized user. -/
structure AuthResponse where
  accessToken : String
  tokenType : String
  expiresIn : String
  user : List (String × JVal)

/-- Model of `UsersService.updateLastLogin`: stamps the login timestamp on the row
with the given id. -/
def updateLastLogin (now : Nat) (id : Nat) (s : ServiceState) : ServiceState :=
  { s with users := s.users.map (fun v =>
      if v.id = id then { v with lastLoginAt := some now } else v) }

/-- Model of `AuthService.generateAuthResponse`: signs the payload built from the
user (sub = id, email, role) and shapes the auth response, serializing
the user through `UserResponseDto`.  The `sign` parameter stands for
`jwtService.sign`, `expiresIn` for the configured expiration time. -/
def generateAuthResponse (sign : JwtPayload → String) (expiresIn : String)
    (u : User) : AuthResponse :=
  { accessToken := sign { sub := u.id, email := u.email, role := u.role }
    tokenType := "Bearer"
    expiresIn := expiresIn
    user := userResponseFields u }

/-- Model of `AuthService.login`: looks the user up by email (401 when absent),
rejects deactivated accounts (401), compares the password against the
stored hash via bcrypt (`compare`; 401 on mismatch), refreshes the login
timestamp and returns the signed auth response. -/
def login (compare : String → String → Bool) (sign : JwtPayload → String)
    (expiresIn : String) (now : Nat) (dto : LoginDto) (s : ServiceState) :
    Except HttpError (ServiceState × AuthResponse) :=
  match findOneByEmail s dto.email with
  | none => .error (.unauthorized "Invalid credentials")
  | some u =>
    if u.isActive = false then .error (.unauthorized "Account is deactivated")
    else if compare dto.password u.password = false then
      .error (.unauthorized "Invalid credentials")
    else
      .ok (updateLastLogin now u.id s, generateAuthResponse sign expiresIn u)

/-- Well-formedness of the users table: primary keys are distinct and
below the generator, and the emails of all stored rows (soft-deleted
rows included, as the UQ_users_email constraint demands) are pairwise
distinct. -/
def WF (s : ServiceState) : Prop :=
  (s.users.map User.id).Nodup ∧
  (∀ u ∈ s.users, u.id < s.nextId) ∧
  (s.users.map User.email).Nodup

instance (s : ServiceState) : Decidable (WF s) := by
  unfold WF; infer_instance

end Nest

/-- Boolean success test on a service result. -/
def exceptIsOk {α : Type} (r : Except HttpError α) : Bool :=
  match r with
  | .ok _ => true
  | .error _ => false

/-! ### SQL ORDER BY, modelled as an insertion sort -/

/-- Insert into a sorted list, before the first element that the order
function does not place earlier. -/
def insertSorted {α : Type} (le : α → α → Bool) (a : α) : List α → List α
  | [] => [a]
  | b :: t => if le a b then a :: b :: t else b :: insertSorted le a t

/-- Insertion sort, the model of the ORDER BY clause both query builders
attach; pagination is applied to its output. -/
def insertionSort {α : Type} (le : α → α → Bool) : List α → List α
  | [] => []
  | a :: t => insertSorted le a (insertionSort le t)

/-- Model of the SQL `ILIKE escPattern(search)` operator both templates
use: case-insensitive substring containment. -/
def containsCI (hay pat : String) : Bool :=
  decide (pat.toLower.toList <:+: hay.toLower.toList)

/-! ### NestJS template: paginated list query (`users.service.ts`) -/

namespace Nest

/-- Model of `QueryUserDto` after validation: optional page, limit, sortBy,
sortOrder, role filter and search term; the service destructures them
with defaults page 1, limit 10, sortBy createdAt, sortOrder DESC. -/
structure QueryUserDto where
  page : Option Nat
  limit : Option Nat
  sortBy : Option String
  sortOrder : Option String
  role : Option UserRole
  search : Option String
deriving DecidableEq, Repr

/-- Model of `PaginationMeta` as computed by `UsersService.findAll`. -/
structure PaginationMeta where
  page : Nat
  limit : Nat
  total : Nat
  totalPages : Nat
  hasNextPage : Bool
  hasPreviousPage : Bool
deriving DecidableEq, Repr

/-- Data page plus pagination metadata returned by `findAll`. -/
structure FindAllResult where
  data : List User
  pagination : PaginationMeta
deriving DecidableEq, Repr

/-- The search filter of `findAll`: ILIKE on firstName, lastName or
email. -/
def matchesSearch (search : String) (u : User) : Bool :=
  containsCI u.firstName search || containsCI u.lastName search ||
    containsCI u.email search

/-- Comparison of two users on the sort column (`createdAt`, `email`,
`firstName` or `lastName`; the DTO documents exactly these). -/
def userFieldLe (sortBy : String) (a b : User) : Bool :=
  match sortBy with
  | "email" => a.email ≤ b.email
  | "firstName" => a.firstName ≤ b.firstName
  | "lastName" => a.lastName ≤ b.lastName
  | _ => a.createdAt ≤ b.createdAt

/-- Order function derived from sortBy and sortOrder (DESC reverses). -/
def userLe (sortBy sortOrder : String) (a b : User) : Bool :=
  if sortOrder = "DESC" then userFieldLe sortBy b a else userFieldLe sortBy a b

/-- The rows matched by the query before pagination: visible rows,
optionally filtered by role and search, in ORDER BY order.  This is what
`getManyAndCount` counts. -/
def findAllMatching (q : QueryUserDto) (s : ServiceState) : List User :=
  let base := activeUsers s
  let base := match q.role with
    | some r => base.filter (fun u => u.role = r)
    | none => base
  let base := match q.search with
    | some srch => base.filter (fun u => matchesSearch srch u)
    | none => base
  insertionSort (userLe (q.sortBy.getD "createdAt") (q.sortOrder.getD "DESC")) base

/-- Model of `UsersService.findAll`: skip (page - 1) * limit rows, take limit
rows, and report metadata with totalPages = Math.ceil(total / limit)
(equal to (total + limit - 1) / limit in natural division for a positive
limit), hasNextPage = page < totalPages, hasPreviousPage = page > 1. -/
def findAll (q : QueryUserDto) (s : ServiceState) : FindAllResult :=
  let page := q.page.getD 1
  let limit := q.limit.getD 10
  let sorted := findAllMatching q s
  let skip := (page - 1) * limit
  let data := (sorted.drop skip).take limit
  let total := sorted.length
  let totalPages := (total + limit - 1) / limit
  { data := data
    pagination :=
      { page := page
        limit := limit
        total := total
        totalPages := totalPages
        hasNextPage := decide (page < totalPages)
        hasPreviousPage := decide (page > 1) } }

end Nest

/-! ### NestJS template: query DTO validation (`query-user.dto.ts`) -/

/-- Raw pagination query parameters before class-validator runs
(absent fields are `none`; numbers may be negative). -/
structure RawQuery where
  page : Option Int
  limit : Option Int
deriving DecidableEq, Repr

/-- The class-validator rules of `QueryUserDto` on page and limit: each
field is optional, and when present must satisfy `@Min(1)`.  No `@Max`
decorator is declared for limit. -/
def validateQueryUser (q : RawQuery) : Bool :=
  (match q.page with
   | some p => decide (1 ≤ p)
   | none => true) &&
  (match q.limit with
   | some l => decide (1 ≤ l)
   | none => true)

/-! ### Express template: repository, service and serialization -/

namespace Xp

/-- Model of `CreateUserDto` of `user.dto.ts`: email, password, firstName,
lastName. -/
structure CreateUserDto where
  email : String
  password : String
  firstName : String
  lastName : String
deriving DecidableEq, Repr

/-- The search filter of `UserRepository.findAll`: iLike on email,
firstName or lastName. -/
def matchesSearch (search : String) (u : User) : Bool :=
  containsCI u.email search || containsCI u.firstName search ||
    containsCI u.lastName search

/-- The rows matched by a list query before pagination: visible rows of
the paranoid table, optionally search-filtered, ordered by createdAt
DESC. -/
def repoMatching (search : Option String) (db : List User) : List User :=
  let visible := db.filter (fun u => u.deletedAt = none)
  let filtered := match search with
    | some srch => visible.filter (fun u => matchesSearch srch u)
    | none => visible
  insertionSort (fun a b => b.createdAt ≤ a.createdAt) filtered

/-- Model of `UserRepository.findAll`: offset (page - 1) * pageSize, limit
pageSize, together with the count of all matching rows. -/
def repoFindAll (page pageSize : Nat) (search : Option String)
    (db : List User) : List User × Nat :=
  let sorted := repoMatching search db
  let offset := (page - 1) * pageSize
  ((sorted.drop offset).take pageSize, sorted.length)

/-- Result shape of `UserService.getAllUsers`. -/
structure GetAllResult where
  users : List User
  total : Nat
  page : Int
  pageSize : Int
deriving DecidableEq, Repr

/-- Model of `UserService.getAllUsers`: rejects page < 1 and pageSize outside
1..100 with a 400 `AppError` before any repository call, then delegates
to `UserRepository.findAll`. -/
def getAllUsers (page pageSize : Int) (search : Option String)
    (db : List User) : Except HttpError GetAllResult :=
  if page < 1 then .error (.badRequest "Page must be greater than 0")
  else if pageSize < 1 ∨ 100 < pageSize then
    .error (.badRequest "Page size must be between 1 and 100")
  else
    let r := repoFindAll page.toNat pageSize.toNat search db
    .ok { users := r.1, total := r.2, page := page, pageSize := pageSize }

/-- Pagination metadata shape of the Express template (`response.ts`). -/
structure PaginationMeta where
  page : Nat
  pageSize : Nat
  totalItems : Nat
  totalPages : Nat
deriving DecidableEq, Repr

/-- Metadata assembled by `UserController.getAllUsers`: totalPages =
Math.ceil(total / pageSize). -/
def controllerMeta (r : GetAllResult) : PaginationMeta :=
  { page := r.page.toNat
    pageSize := r.pageSize.toNat
    totalItems := r.total
    totalPages := (r.total + r.pageSize.toNat - 1) / r.pageSize.toNat }

/-- Raw attribute values of a stored row, as returned by
`super.toJSON()` before the password is deleted. -/
def userFields (u : User) : List (String × JVal) :=
  [("id", .num u.id),
   ("email", .str u.email),
   ("password", .str u.password),
   ("firstName", .str u.firstName),
   ("lastName", .str u.lastName),
   ("isActive", .bool u.isActive),
   ("role", .str u.role.str),
   ("createdAt", .num u.createdAt),
   ("updatedAt", .num u.updatedAt),
   ("deletedAt", match u.deletedAt with | some t => .num t | none => .null)]

/-- Model of `User.toJSON`: the attribute object with the password key deleted. -/
def toJSON (u : User) : List (String × JVal) :=
  (userFields u).filter (fun kv => kv.1 ≠ "password")

/-- Model of `UserRepository.create`: only email, password, firstName and
lastName are passed to `User.create`; the model defaults fill isActive
true and role user, and the password is stored as received (hashing is
left as a TODO in the source).  `freshId` and `now` stand for the
generated key and timestamps. -/
def repoCreate (freshId now : Nat) (dto : CreateUserDto) : User :=
  { id := freshId
    email := dto.email
    password := dto.password
    firstName := dto.firstName
    lastName := dto.lastName
    isActive := true
    role := .user
    createdAt := now
    updatedAt := now
    deletedAt := none }

/-- Model of `UserRepository.findByEmail` (`User.findOne` on the paranoid
table): first non-soft-deleted row with the email. -/
def findByEmail (db : List User) (email : String) : Option User :=
  (db.filter (fun u => u.deletedAt = none)).find? (fun u => u.email = email)

/-- Model of `UpdateUserDto` of `user.dto.ts`: all fields optional. -/
structure UpdateUserDto where
  email : Option String
  password : Option String
  firstName : Option String
  lastName : Option String
deriving DecidableEq, Repr

/-- Model of `user.update(data)` field assignment: every field carried by
the DTO overwrites the row field. -/
def applyUpdate (dto : UpdateUserDto) (u : User) : User :=
  { u with
    email := dto.email.getD u.email
    password := dto.password.getD u.password
    firstName := dto.firstName.getD u.firstName
    lastName := dto.lastName.getD u.lastName }

/-- State of the Sequelize users table, together with the generator used
for fresh primary keys. -/
structure DbState where
  rows : List User
  nextId : Nat
deriving DecidableEq, Repr

/-- The empty users table. -/
def DbState.empty : DbState := { rows := [], nextId := 0 }

/-- Model of `UserService.createUser`: 409 `AppError` when `findByEmail` finds a
visible row with the email; otherwise `UserRepository.create` runs an
INSERT subject to the unique index on email, which spans soft-deleted
rows — a collision raises `SequelizeUniqueConstraintError`, rethrown by
the repository as the 500 `DatabaseError`. -/
def createUser (now : Nat) (dto : CreateUserDto) (st : DbState) :
    Except HttpError (DbState × User) :=
  match findByEmail st.rows dto.email with
  | some _ => .error (.conflict "User with this email already exists")
  | none =>
    if st.rows.any (fun v => v.email = dto.email) then
      .error (.internalError "Email already exists")
    else
      let u := repoCreate st.nextId now dto
      .ok ({ rows := st.rows ++ [u], nextId := st.nextId + 1 }, u)

/-- Model of `UserService.updateUser`: 409 `AppError` when the DTO carries an
email held by a visible row with a different id; then
`UserRepository.update` loads by id (404 `NotFoundError` when absent) and
runs an UPDATE subject to the unique index over the other stored rows —
a collision is rethrown as the 500 `DatabaseError`. -/
def updateUser (id : Nat) (dto : UpdateUserDto) (st : DbState) :
    Except HttpError (DbState × User) :=
  let conflict : Bool :=
    match dto.email with
    | some e =>
      match findByEmail st.rows e with
      | some ex => decide (ex.id ≠ id)
      | none => false
    | none => false
  if conflict then .error (.conflict "Email already in use by another user")
  else
    match findByPk st.rows id with
    | none =>
      .error (.notFound ("User with identifier \x27" ++ toString id ++ "\x27 not found"))
    | some u =>
      let u' := applyUpdate dto u
      if st.rows.any (fun v => v.id ≠ u'.id && v.email = u'.email) then
        .error (.internalError "Email already exists")
      else
        .ok ({ st with rows := st.rows.map (fun v => if v.id = u'.id then u' else v) }, u')

/-- Model of `UserRepository.delete`: `findByPk` (404 `NotFoundError` when the id
is absent from the visible rows) then `destroy()`, which on a paranoid
model stamps the soft-delete marker. -/
def repoDelete (now : Nat) (id : Nat) (db : List User) :
    Except HttpError (List User) :=
  match findByPk db id with
  | none =>
    .error (.notFound ("User with identifier \x27" ++ toString id ++ "\x27 not found"))
  | some u =>
    .ok (db.map (fun v =>
      if v.id = u.id then { v with deletedAt := some now } else v))

/-- Model of `UserService.deleteUser`: delegation to the repository. -/
def deleteUser (now id : Nat) (st : DbState) : Except HttpError DbState :=
  match repoDelete now id st.rows with
  | .error e => .error e
  | .ok rows2 => .ok { st with rows := rows2 }

/-- One CRUD request against the Express user service. -/
inductive Op where
  | createOp (dto : CreateUserDto)
  | updateOp (id : Nat) (dto : UpdateUserDto)
  | removeOp (id : Nat)
deriving DecidableEq, Repr

/-- State after one request: a thrown error leaves the store as it was. -/
def step (now : Nat) (op : Op) (st : DbState) : DbState :=
  match op with
  | .createOp dto =>
    match createUser now dto st with
    | .ok (st2, _) => st2
    | .error _ => st
  | .updateOp id dto =>
    match updateUser id dto st with
    | .ok (st2, _) => st2
    | .error _ => st
  | .removeOp id =>
    match deleteUser now id st with
    | .ok st2 => st2
    | .error _ => st

/-- State after a sequence of requests. -/
def run (now : Nat) (ops : List Op) (st : DbState) : DbState :=
  ops.foldl (fun acc op => step now op acc) st

/-- Well-formedness of the Sequelize users table: distinct primary keys
below the generator, and pairwise distinct emails over all stored rows
(the unique index spans soft-deleted rows). -/
def WF (st : DbState) : Prop :=
  (st.rows.map User.id).Nodup ∧
  (∀ u ∈ st.rows, u.id < st.nextId) ∧
  (st.rows.map User.email).Nodup

instance (st : DbState) : Decidable (WF st) := by
  unfold WF; infer_instance

end Xp

/-! ### NestJS template: global exception filter
(`http-exception.filter.ts`) -/

/-- An exception reaching the global filter.  `HttpException`s carry a
status and either a plain string response, an object response whose
message is a string (possibly absent), or an object response whose
message is an array of validation errors; `QueryFailedError` and plain
`Error`s carry no HTTP status. -/
inductive CaughtException where
  | httpString (status : Nat) (response : String)
  | httpObject (status : Nat) (message : Option String) (errors : Option (List String))
  | httpValidation (status : Nat) (messages : List String)
  | queryFailed (message : String)
  | otherError (message : String)
deriving DecidableEq, Repr

/-- The HTTP status carried by the exception, when it carries one. -/
def CaughtException.getStatus : CaughtException → Option Nat
  | .httpString st _ => some st
  | .httpObject st _ _ => some st
  | .httpValidation st _ => some st
  | .queryFailed _ => none
  | .otherError _ => none

/-- Model of `getUserFriendlyMessage` of the filter. -/
def getUserFriendlyMessage (status : Nat) : String :=
  if 400 ≤ status ∧ status < 500 then
    match status with
    | 400 => "The request data is invalid"
    | 401 => "You are not authenticated. Please log in to continue"
    | 403 => "You don\x27t have permission to access this resource"
    | 404 => "The requested resource was not found"
    | 409 => "This resource already exists"
    | 422 => "The provided data could not be processed"
    | 429 => "Too many requests. Please try again later"
    | _ => "Invalid request"
  else "Something went wrong. Please try again later"

/-- The error body shape of the filter (`ErrorResponse`). -/
structure ErrorResponse where
  success : Bool
  message : String
  errors : Option (List String)
deriving DecidableEq, Repr

/-- The response sent by the filter: status plus JSON body. -/
structure FilterResult where
  status : Nat
  body : ErrorResponse
deriving DecidableEq, Repr

/-- Model of `HttpExceptionFilter.catch`: status and message from the exception
(falling back to the friendly message and 500), debug-gated error
details, and the final rule that server errors outside debug mode hide
message and details. -/
def catchException (isDebugMode : Bool) (exc : CaughtException) : FilterResult :=
  let st : Nat :=
    match exc with
    | .httpString s _ => s
    | .httpObject s _ _ => s
    | .httpValidation s _ => s
    | .queryFailed _ => 500
    | .otherError _ => 500
  let message : String :=
    match exc with
    | .httpString _ resp => resp
    | .httpObject s msg _ =>
      (match msg with
       | some m => if m = "" then getUserFriendlyMessage s else m
       | none => getUserFriendlyMessage s)
    | .httpValidation s _ => getUserFriendlyMessage s
    | .queryFailed _ => getUserFriendlyMessage 500
    | .otherError _ => getUserFriendlyMessage 500
  let errors : Option (List String) :=
    match exc with
    | .httpString _ _ => none
    | .httpObject _ _ errs => errs
    | .httpValidation _ msgs => some msgs
    | .queryFailed m => if isDebugMode then some [m] else none
    | .otherError m => if isDebugMode then some [m] else none
  let message := if 500 ≤ st ∧ isDebugMode = false then getUserFriendlyMessage st else message
  let errors := if 500 ≤ st ∧ isDebugMode = false then none else errors
  { status := st, body := { success := false, message := message, errors := errors } }

/-! ### Express template: global error handler (`errorHandler.ts`) -/

namespace Xp

/-- An error reaching the Express error handler.  `AppError` carries a
status code and message (this base class is referenced by the handler;
its shape, message plus statusCode, is taken from its uses in the
repository); `ValidationError` extends it with status 400 and a list of
field errors; anything else is a plain `Error`. -/
inductive CaughtError where
  | appError (statusCode : Nat) (message : String)
  | validationErr (message : String) (errors : List String)
  | plainError (message : String)
deriving DecidableEq, Repr

/-- A status plus JSON body response. -/
structure HttpResponse where
  status : Nat
  body : JVal

/-- Model of `errorResponse` of `response.ts`: success false, an error object
with message, code and details, and a timestamp. -/
def errorResponse (message : String) (statusCode : Nat) (code : Option String)
    (details : Option JVal) (timestamp : String) : HttpResponse :=
  { status := statusCode
    body := .obj
      [("success", .bool false),
       ("error", .obj
         ([("message", .str message)] ++
          (match code with | some c => [("code", .str c)] | none => []) ++
          (match details with | some d => [("details", d)] | none => []))),
       ("timestamp", .str timestamp)] }

/-- Model of `errorHandler` middleware: status and message from an `AppError`
(500 and a generic message otherwise); the code is the default
INTERNAL_SERVER_ERROR except for a `ValidationError`, which switches it
to VALIDATION_ERROR and adds the field errors as details; then
delegation to `errorResponse`.  The development-mode stack trace
enrichment is modelled by `isDev = false` runs keeping details as
computed. -/
def errorHandler (err : CaughtError) (timestamp : String) : HttpResponse :=
  match err with
  | .appError statusCode message =>
    errorResponse message statusCode (some "INTERNAL_SERVER_ERROR") none timestamp
  | .validationErr message errors =>
    errorResponse message 400 (some "VALIDATION_ERROR")
      (some (.arr (errors.map JVal.str))) timestamp
  | .plainError _ =>
    errorResponse "Internal server error" 500 (some "INTERNAL_SERVER_ERROR") none timestamp

/-- Model of `successResponse` of `response.ts`: success true, data, message and
timestamp. -/
def successResponse (data : JVal) (message : String) (statusCode : Nat)
    (timestamp : String) : HttpResponse :=
  { status := statusCode
    body := .obj
      [("success", .bool true),
       ("data", data),
       ("message", .str message),
       ("timestamp", .str timestamp)] }

/-- Model of `paginatedResponse` of `response.ts`: items and pagination are
nested inside data. -/
def paginatedResponse (items : List JVal) (pag : PaginationMeta)
    (message : String) (statusCode : Nat) (timestamp : String) : HttpResponse :=
  { status := statusCode
    body := .obj
      [("success", .bool true),
       ("data", .obj
         [("items", .arr items),
          ("pagination", .obj
            [("page", .num pag.page),
             ("pageSize", .num pag.pageSize),
             ("totalItems", .num pag.totalItems),
             ("totalPages", .num pag.totalPages)])]),
       ("message", .str message),
       ("timestamp", .str timestamp)] }

end Xp

/-! ### NestJS template: response transform interceptor
(`response-transform.interceptor.ts`) -/

/-- Model of `capitalize` helper of the interceptor. -/
def capitalize (s : String) : String :=
  match s.toList with
  | [] => ""
  | c :: rest => String.mk (c.toUpper :: rest)

/-- Digit stripping, the model of the global digit-regex replacement. -/
def stripDigits (s : String) : String :=
  String.mk (s.toList.filter (fun c => !c.isDigit))

/-- UUID-looking path segment test, the model of the 36-character
`[0-9a-f-]` pattern of the interceptor, at whole-segment granularity. -/
def isUuidSegment (s : String) : Bool :=
  s.length = 36 &&
    s.toList.all (fun c => c.isDigit || "abcdefABCDEF-".toList.contains c)

/-- Model of `generateSuccessMessage`: resource name from the last nonempty path
segment (default resource), UUIDs and digits stripped, then a
method-specific phrase. -/
def generateSuccessMessage (method path : String) : String :=
  let segments := (path.splitOn "/").filter (fun seg => seg ≠ "")
  let resource := segments.getLast?.getD "resource"
  let cleanResource := stripDigits (if isUuidSegment resource then "" else resource)
  let m := method.toUpper
  if m = "GET" then capitalize cleanResource ++ " retrieved successfully"
  else if m = "POST" then capitalize cleanResource ++ " created successfully"
  else if m = "PUT" then capitalize cleanResource ++ " updated successfully"
  else if m = "PATCH" then capitalize cleanResource ++ " updated successfully"
  else if m = "DELETE" then capitalize cleanResource ++ " deleted successfully"
  else "Operation completed successfully"

/-- Model of `ResponseTransformInterceptor.intercept` on a handler payload:
already-wrapped payloads (own success and message properties) pass
through; otherwise the payload is wrapped as success, message, data,
where a truthy message property of the payload overrides the generated
message and moves the data property into the envelope (an absent data
property is then dropped from the serialized JSON, like any undefined
field). -/
def intercept (method path : String) (data : JVal) : JVal :=
  if data.hasProp "success" && data.hasProp "message" then data
  else
    let defaultMessage := generateSuccessMessage method path
    let msgVal := data.getProp "message"
    let msgTruthy := match msgVal with
      | some v => v.truthy
      | none => false
    let message : JVal := if msgTruthy then msgVal.getD .null else .str defaultMessage
    let payload : Option JVal := if msgTruthy then data.getProp "data" else some data
    .obj ([("success", .bool true), ("message", message)] ++
      (match payload with
       | some v => [("data", v)]
       | none => []))

/-- Output of the NestJS users list handler before the interceptor runs:
the serialized page and the pagination metadata
(`UsersController.findAll`). -/
def nestFindAllHandlerOutput (q : Nest.QueryUserDto) (s : Nest.ServiceState) : JVal :=
  let r := Nest.findAll q s
  .obj
    [("data", .arr (r.data.map (fun u => .obj (Nest.userResponseFields u)))),
     ("pagination", .obj
       [("page", .num r.pagination.page),
        ("limit", .num r.pagination.limit),
        ("total", .num r.pagination.total),
        ("totalPages", .num r.pagination.totalPages),
        ("hasNextPage", .bool r.pagination.hasNextPage),
        ("hasPreviousPage", .bool r.pagination.hasPreviousPage)])]

/-! ### C1: role-gated access -/

/-- C1: for a role-protected handler and an authenticated user, the NestJS
`RolesGuard` permits the request exactly when the required-role list is
absent or empty or contains the user role; a non-member role is rejected
with a 403 `ForbiddenException` and the handler body never runs.  The
Express `roleRequired` middleware behaves the same way for its singleton
role list: with a valid token and an existing user it passes exactly when
the user role equals the required role, rejecting with 403 otherwise. -/
theorem roles_guard_permits_iff_member
    (requiredRoles : Option (List String)) (u : RequestUser)
    (xrole : Xp.Role) (db : List Xp.User) (td : Xp.TokenData) (xu : Xp.User) :
    (rolesGuardCanActivate requiredRoles (some u) = .ok true ↔
      requiredRoles = none ∨
        ∃ roles, requiredRoles = some roles ∧ (roles = [] ∨ u.role ∈ roles)) ∧
    (∀ roles, requiredRoles = some roles → roles ≠ [] → u.role ∉ roles →
      rolesGuardCanActivate requiredRoles (some u) =
        .error (.forbidden (rolesGuardDeniedMessage roles)) ∧
      HttpError.status (.forbidden (rolesGuardDeniedMessage roles)) = 403 ∧
      ∀ (handler : Unit → JVal),
        runGuarded (rolesGuardCanActivate requiredRoles (some u)) handler =
          .error (.forbidden (rolesGuardDeniedMessage roles))) ∧
    (Xp.findByPk db td.id = some xu →
      ((Xp.roleRequired xrole db (some td) = .ok td ↔ xu.role = xrole) ∧
       (xu.role ≠ xrole →
         Xp.roleRequired xrole db (some td) =
           .error (.forbidden Xp.notAuthorizedMessage) ∧
         HttpError.status (.forbidden Xp.notAuthorizedMessage) = 403))) := by
  refine ⟨?_, ?_, ?_⟩
  · unfold rolesGuardCanActivate
    cases requiredRoles with
    | none => simp
    | some roles =>
      cases roles with
      | nil => simp
      | cons r rs =>
        simp only [List.length_cons, Nat.succ_ne_zero, if_false, List.any_eq_true,
          decide_eq_true_eq, reduceCtorEq, false_or]
        by_cases hmem : u.role ∈ r :: rs
        · rw [if_pos]
          · simp only [true_iff]
            exact ⟨r :: rs, rfl, Or.inr hmem⟩
          · exact ⟨u.role, hmem, rfl⟩
        · rw [if_neg]
          · simp only [reduceCtorEq, false_iff, not_or]
            rintro ⟨roles, h1, h2⟩
            cases h1
            rcases h2 with h2 | h2
            · exact List.cons_ne_nil r rs h2
            · exact hmem h2
          · rintro ⟨x, hx, rfl⟩
            exact hmem hx
  · rintro roles rfl hne hmem
    have hguard : rolesGuardCanActivate (some roles) (some u) =
        .error (.forbidden (rolesGuardDeniedMessage roles)) := by
      unfold rolesGuardCanActivate
      dsimp only
      rw [if_neg (by simpa using List.length_pos.mpr hne |>.ne.symm)]
      rw [if_neg (by rintro h; rcases List.any_eq_true.mp h with ⟨x, hx, he⟩
                     exact hmem ((of_decide_eq_true he) ▸ hx))]
    exact ⟨hguard, rfl, fun handler => by rw [hguard]; rfl⟩
  · intro hfind
    unfold Xp.roleRequired
    dsimp only
    rw [hfind]
    constructor
    · by_cases hr : xu.role = xrole
      · simp [hr]
      · simp [hr]
    · intro hr
      dsimp only
      rw [if_neg hr]
      exact ⟨rfl, rfl⟩

/-- Witness for C1: concrete instances of both the permitting and the
rejecting branch of the role check. -/
theorem roles_guard_permits_iff_member_witness :
    rolesGuardCanActivate (some ["admin", "manager"]) (some ⟨7, "admin"⟩) = .ok true ∧
    rolesGuardCanActivate (some ["admin", "manager"]) (some ⟨7, "user"⟩) =
      .error (.forbidden "Access denied. Required roles: admin, manager") := by
  have h1 := roles_guard_permits_iff_member (some ["admin", "manager"]) ⟨7, "admin"⟩
    Xp.Role.admin [] ⟨7, "admin"⟩ ⟨7, "a@b.c", "p", "A", "B", true, .admin, 0, 0, none⟩
  have h2 := roles_guard_permits_iff_member (some ["admin", "manager"]) ⟨7, "user"⟩
    Xp.Role.admin [] ⟨7, "admin"⟩ ⟨7, "a@b.c", "p", "A", "B", true, .admin, 0, 0, none⟩
  refine ⟨h1.1.mpr (Or.inr ⟨["admin", "manager"], rfl, Or.inr (by decide)⟩), ?_⟩
  have := (h2.2.1 ["admin", "manager"] rfl (by decide) (by decide)).1
  simpa [rolesGuardDeniedMessage] using this

/-! ### C2: email uniqueness -/

namespace Nest

theorem mem_activeUsers {s : ServiceState} {u : User} :
    u ∈ activeUsers s ↔ u ∈ s.users ∧ u.deletedAt = none := by
  simp [activeUsers, List.mem_filter]

theorem findOneByEmail_eq_none_iff {s : ServiceState} {e : String} :
    findOneByEmail s e = none ↔ ∀ u ∈ activeUsers s, u.email ≠ e := by
  simp [findOneByEmail, List.find?_eq_none]

theorem findOneByEmail_isSome_iff {s : ServiceState} {e : String} :
    (findOneByEmail s e).isSome = true ↔ ∃ u ∈ activeUsers s, u.email = e := by
  simp [findOneByEmail, List.find?_isSome]

theorem findOneById_mem {s : ServiceState} {id : Nat} {u : User}
    (h : findOneById s id = some u) : u ∈ activeUsers s ∧ u.id = id := by
  refine ⟨List.mem_of_find?_eq_some h, ?_⟩
  have h2 := List.find?_some h
  exact of_decide_eq_true h2

/-- Anatomy of a successful `create`: the email was free among the
visible rows and, because the save passed the UQ_users_email unique
constraint, among all stored rows; the new row is appended with the
declared column defaults. -/
theorem create_ok_state {hash : String → String} {now : Nat}
    {dto : CreateUserDto} {s s' : ServiceState} {u : User}
    (h : create hash now dto s = .ok (s', u)) :
    findOneByEmail s dto.email = none ∧
    (∀ v ∈ s.users, v.email ≠ dto.email) ∧
    s' = { users := s.users ++ [u], nextId := s.nextId + 1 } ∧
    u.id = s.nextId ∧ u.email = dto.email ∧ u.deletedAt = none ∧
    u.role = dto.role.getD .user := by
  unfold create at h
  cases hfind : findOneByEmail s dto.email with
  | some w => rw [hfind] at h; cases h
  | none =>
    rw [hfind] at h
    dsimp only at h
    by_cases hany : (s.users.any (fun v => v.email = dto.email)) = true
    · rw [if_pos hany] at h; cases h
    · rw [if_neg hany] at h
      simp only [Except.ok.injEq, Prod.mk.injEq] at h
      obtain ⟨hs, hu⟩ := h
      subst hs
      subst hu
      refine ⟨rfl, ?_, rfl, rfl, rfl, rfl, rfl⟩
      intro v hv hve
      exact hany (List.any_eq_true.mpr ⟨v, hv, decide_eq_true hve⟩)

/-- A `create` throws the 409 conflict exactly when a visible row
already holds the email. -/
theorem create_error_iff {hash : String → String} {now : Nat}
    {dto : CreateUserDto} {s : ServiceState} :
    create hash now dto s = .error (.http (.conflict "Email already exists")) ↔
      ∃ u ∈ activeUsers s, u.email = dto.email := by
  rw [← findOneByEmail_isSome_iff]
  unfold create
  cases hfind : findOneByEmail s dto.email with
  | some w => simp
  | none =>
    dsimp only
    by_cases hany : (s.users.any (fun v => v.email = dto.email)) = true
    · rw [if_pos hany]
      simp
    · rw [if_neg hany]
      simp

/-- A `create` that passes the service check (no visible holder) but
collides with a stored row — a soft-deleted holder — throws the unique
constraint driver error, the `QueryFailedError`, instead of a 409. -/
theorem create_queryFailed {hash : String → String} {now : Nat}
    {dto : CreateUserDto} {s : ServiceState}
    (hnone : findOneByEmail s dto.email = none)
    (hex : ∃ v ∈ s.users, v.email = dto.email) :
    create hash now dto s = .error (.queryFailed uniqueViolationMessage) := by
  unfold create
  rw [hnone]
  dsimp only
  obtain ⟨v, hv, hve⟩ := hex
  rw [if_pos (List.any_eq_true.mpr ⟨v, hv, decide_eq_true hve⟩)]

/-- Anatomy of a successful `update`: the target was found among visible
rows, the assigned email collides with no other stored row (the service
check covers the visible rows, the unique constraint in the save the
rest), and the row is overwritten with the assigned fields. -/
theorem update_ok_state {hash : String → String} {id : Nat}
    {dto : UpdateUserDto} {s s' : ServiceState} {u' : User}
    (h : update hash id dto s = .ok (s', u')) :
    ∃ u, findOneById s id = some u ∧
      u' = applyUpdate hash dto u ∧
      s' = saveReplace s u' ∧
      (∀ w ∈ s.users, w.id ≠ u'.id → w.email ≠ u'.email) := by
  unfold update findOne at h
  cases hfind : findOneById s id with
  | none => rw [hfind] at h; cases h
  | some u =>
    rw [hfind] at h
    dsimp only at h
    refine ⟨u, rfl, ?_⟩
    by_cases hconf : (match dto.email with
      | some e => if e ≠ u.email then (findOneByEmail s e).isSome else false
      | none => false) = true
    · rw [if_pos hconf] at h; cases h
    · rw [if_neg hconf] at h
      by_cases hany : (s.users.any (fun v =>
          v.id ≠ (applyUpdate hash dto u).id && v.email = (applyUpdate hash dto u).email)) = true
      · rw [if_pos hany] at h; cases h
      · rw [if_neg hany] at h
        simp only [Except.ok.injEq, Prod.mk.injEq] at h
        obtain ⟨hs, hu⟩ := h
        subst hu
        refine ⟨rfl, hs.symm, ?_⟩
        intro w hw hwid hwe
        refine hany (List.any_eq_true.mpr ⟨w, hw, ?_⟩)
        rw [Bool.and_eq_true]
        exact ⟨decide_eq_true hwid, decide_eq_true hwe⟩

/-- Anatomy of a successful `remove`: the target was found among visible
rows and only its soft-delete marker is stamped. -/
theorem remove_ok_state {now : Nat} {id : Nat} {s s' : ServiceState}
    (h : remove now id s = .ok s') :
    ∃ u, findOneById s id = some u ∧
      s' = { s with
             users := s.users.map (fun v =>
               if v.id = u.id then { v with deletedAt := some now } else v) } := by
  unfold remove findOne at h
  cases hfind : findOneById s id with
  | none => rw [hfind] at h; cases h
  | some u =>
    rw [hfind] at h
    dsimp only at h
    simp only [Except.ok.injEq] at h
    exact ⟨u, rfl, h.symm⟩

/-- A failed `remove` is the 404, thrown exactly when no visible row
holds the id. -/
theorem remove_error_iff {now : Nat} {id : Nat} {s : ServiceState} :
    (∃ m, remove now id s = .error (.notFound m)) ↔ findOneById s id = none := by
  unfold remove findOne
  cases hfind : findOneById s id with
  | none => simp
  | some u => simp

end Nest

/-- Replacing the rows holding a given primary key, by replacements
agreeing with the original on a projection, leaves the projected list
unchanged. -/
theorem map_replace_preserve {α β γ : Type} [DecidableEq β] (key : α → β)
    (val : α → γ) (k : β) (g : α → α)
    (hg : ∀ v, key v = k → val (g v) = val v) (l : List α) :
    (l.map (fun v => if key v = k then g v else v)).map val = l.map val := by
  rw [List.map_map]
  refine List.map_congr_left ?_
  intro v hv
  by_cases h : key v = k
  · simp only [Function.comp_apply, if_pos h]
    exact hg v h
  · simp only [Function.comp_apply, if_neg h]

/-- Replacing the rows holding a given primary key cannot break
distinctness of a projected value, provided no replacement takes the
value of a row with a different key. -/
theorem nodup_map_replace {α β γ : Type} [DecidableEq β] (key : α → β)
    (val : α → γ) (k : β) (g : α → α) :
    ∀ l : List α,
      (l.map key).Nodup →
      (l.map val).Nodup →
      (∀ v ∈ l, key v = k → ∀ w ∈ l, key w ≠ k → val w ≠ val (g v)) →
      ((l.map (fun v => if key v = k then g v else v)).map val).Nodup := by
  intro l
  induction l with
  | nil => intro _ _ _; simp
  | cons v t ih =>
    intro hkeys hvals hfresh
    rw [List.map_cons] at hkeys hvals
    have hknotin : key v ∉ t.map key := (List.nodup_cons.mp hkeys).1
    have hkeys_t : (t.map key).Nodup := (List.nodup_cons.mp hkeys).2
    have hvals_t : (t.map val).Nodup := (List.nodup_cons.mp hvals).2
    have hvnot : val v ∉ t.map val := (List.nodup_cons.mp hvals).1
    have hfresh_t : ∀ w ∈ t, key w = k → ∀ w2 ∈ t, key w2 ≠ k →
        val w2 ≠ val (g w) :=
      fun w hw hwk w2 hw2 h2k =>
        hfresh w (List.mem_cons_of_mem _ hw) hwk w2 (List.mem_cons_of_mem _ hw2) h2k
    rw [List.map_cons]
    by_cases hv : key v = k
    · have htk : ∀ w ∈ t, key w ≠ k := by
        intro w hw hwk
        exact hknotin (by rw [hv, ← hwk]; exact List.mem_map_of_mem key hw)
      have hmap_t : t.map (fun w => if key w = k then g w else w) = t := by
        have hcongr : ∀ w ∈ t, (if key w = k then g w else w) = (fun w => w) w :=
          fun w hw => if_neg (htk w hw)
        rw [List.map_congr_left hcongr, List.map_id']
      rw [if_pos hv, hmap_t, List.map_cons, List.nodup_cons]
      refine ⟨?_, hvals_t⟩
      intro hmem
      rcases List.mem_map.mp hmem with ⟨w, hw, hwe⟩
      exact hfresh v (List.mem_cons_self v t) hv w (List.mem_cons_of_mem _ hw)
        (htk w hw) hwe
    · rw [if_neg hv, List.map_cons, List.nodup_cons]
      refine ⟨?_, ih hkeys_t hvals_t hfresh_t⟩
      intro hmem
      rcases List.mem_map.mp hmem with ⟨x, hx, hxe⟩
      rcases List.mem_map.mp hx with ⟨w, hw, hwx⟩
      by_cases hwk : key w = k
      · have hgw : g w = x := by rw [← hwx, if_pos hwk]
        exact hfresh w (List.mem_cons_of_mem _ hw) hwk v (List.mem_cons_self v t)
          hv (by rw [hgw, hxe])
      · have hwx2 : w = x := by rw [← hwx, if_neg hwk]
        exact hvnot (by rw [← hxe, ← hwx2]; exact List.mem_map_of_mem val hw)

namespace Nest

/-- One CRUD request preserves well-formedness of the users table. -/
theorem WF_step (hash : String → String) (now : Nat) (op : Op)
    (s : ServiceState) (hwf : WF s) : WF (step hash now op s) := by
  obtain ⟨hids, hbound, hemails⟩ := hwf
  cases op with
  | createOp dto =>
    unfold step
    dsimp only
    cases hc : create hash now dto s with
    | error e => exact ⟨hids, hbound, hemails⟩
    | ok p =>
      obtain ⟨s1, u1⟩ := p
      dsimp only
      obtain ⟨hfind, hall, hs, hid, hemail, hdel, -⟩ := create_ok_state hc
      subst hs
      refine ⟨?_, ?_, ?_⟩
      · rw [List.map_append, List.nodup_append]
        refine ⟨hids, List.nodup_singleton _, ?_⟩
        intro a ha hb
        rcases List.mem_map.mp ha with ⟨w, hw, hwa⟩
        simp only [List.map_cons, List.map_nil, List.mem_singleton] at hb
        have := hbound w hw
        omega
      · intro v hv
        rcases List.mem_append.mp hv with hv | hv
        · exact Nat.lt_succ_of_lt (hbound v hv)
        · simp only [List.mem_singleton] at hv
          subst hv
          exact lt_of_eq_of_lt hid (Nat.lt_succ_self _)
      · rw [List.map_append, List.nodup_append]
        refine ⟨hemails, List.nodup_singleton _, ?_⟩
        intro a ha hb
        rcases List.mem_map.mp ha with ⟨w, hw, hwa⟩
        simp only [List.map_cons, List.map_nil, List.mem_singleton] at hb
        subst hb
        exact hall w hw (hwa.trans hemail)
  | updateOp id dto =>
    unfold step
    dsimp only
    cases hc : update hash id dto s with
    | error e => exact ⟨hids, hbound, hemails⟩
    | ok p =>
      obtain ⟨s1, u2⟩ := p
      dsimp only
      obtain ⟨u, hfind, hu2, hs, hcon⟩ := update_ok_state hc
      subst hu2
      subst hs
      unfold saveReplace
      refine ⟨?_, ?_, ?_⟩
      · rw [map_replace_preserve User.id User.id (applyUpdate hash dto u).id
          (fun x => applyUpdate hash dto u) (fun v h => h.symm)]
        exact hids
      · intro v hv
        rcases List.mem_map.mp hv with ⟨w, hw, hwv⟩
        have hvid : v.id = w.id := by
          by_cases h : w.id = (applyUpdate hash dto u).id
          · rw [← hwv, if_pos h]
            exact h.symm
          · rw [← hwv, if_neg h]
        rw [hvid]
        exact hbound w hw
      · refine nodup_map_replace User.id User.email (applyUpdate hash dto u).id
          (fun x => applyUpdate hash dto u) s.users hids hemails ?_
        intro v hv hvk w hw hwk
        exact hcon w hw hwk
  | removeOp id =>
    unfold step
    dsimp only
    cases hc : remove now id s with
    | error e => exact ⟨hids, hbound, hemails⟩
    | ok s1 =>
      dsimp only
      obtain ⟨u, hfind, hs⟩ := remove_ok_state hc
      subst hs
      refine ⟨?_, ?_, ?_⟩
      · rw [map_replace_preserve User.id User.id u.id
          (fun v => { v with deletedAt := some now }) (fun v h => rfl)]
        exact hids
      · intro v hv
        rcases List.mem_map.mp hv with ⟨w, hw, hwv⟩
        have hvid : v.id = w.id := by
          by_cases h : w.id = u.id
          · rw [← hwv, if_pos h]
          · rw [← hwv, if_neg h]
        rw [hvid]
        exact hbound w hw
      · rw [map_replace_preserve User.id User.email u.id
          (fun v => { v with deletedAt := some now }) (fun v h => rfl)]
        exact hemails

/-- A sequence of CRUD requests preserves well-formedness. -/
theorem WF_run (hash : String → String) (now : Nat) (ops : List Op)
    (s : ServiceState) (hwf : WF s) : WF (run hash now ops s) := by
  induction ops generalizing s with
  | nil => exact hwf
  | cons op ops ih =>
    rw [show run hash now (op :: ops) s = run hash now ops (step hash now op s) from rfl]
    exact ih _ (WF_step hash now op s hwf)

end Nest

/-! ### C2, Express side: the same machinery for the Sequelize store -/

namespace Xp

theorem findByEmail_isSome_iff {db : List User} {e : String} :
    (findByEmail db e).isSome = true ↔
      ∃ u ∈ db.filter (fun u => u.deletedAt = none), u.email = e := by
  simp only [findByEmail, List.find?_isSome, List.mem_filter, decide_eq_true_eq]

/-- Anatomy of a successful Express `createUser`: the email was free
among all stored rows, and the row is appended. -/
theorem createUser_ok_state {now : Nat} {dto : CreateUserDto}
    {st st' : DbState} {u : User}
    (h : createUser now dto st = .ok (st', u)) :
    (∀ v ∈ st.rows, v.email ≠ dto.email) ∧
    st' = { rows := st.rows ++ [u], nextId := st.nextId + 1 } ∧
    u.id = st.nextId ∧ u.email = dto.email := by
  unfold createUser at h
  cases hfind : findByEmail st.rows dto.email with
  | some w => rw [hfind] at h; cases h
  | none =>
    rw [hfind] at h
    dsimp only at h
    by_cases hany : (st.rows.any (fun v => v.email = dto.email)) = true
    · rw [if_pos hany] at h; cases h
    · rw [if_neg hany] at h
      simp only [Except.ok.injEq, Prod.mk.injEq] at h
      obtain ⟨hs, hu⟩ := h
      subst hs
      subst hu
      refine ⟨?_, rfl, rfl, rfl⟩
      intro v hv hve
      exact hany (List.any_eq_true.mpr ⟨v, hv, decide_eq_true hve⟩)

/-- The Express `createUser` throws the 409 conflict exactly when a
visible row already holds the email. -/
theorem createUser_conflict_iff {now : Nat} {dto : CreateUserDto}
    {st : DbState} :
    createUser now dto st = .error (.conflict "User with this email already exists") ↔
      ∃ u ∈ st.rows.filter (fun u => u.deletedAt = none), u.email = dto.email := by
  rw [← findByEmail_isSome_iff]
  unfold createUser
  cases hfind : findByEmail st.rows dto.email with
  | some w => simp
  | none =>
    dsimp only
    by_cases hany : (st.rows.any (fun v => v.email = dto.email)) = true
    · rw [if_pos hany]
      simp
    · rw [if_neg hany]
      simp

/-- Anatomy of a successful Express `updateUser`: the target was found
among visible rows, the assigned email collides with no other stored
row, and the row is overwritten. -/
theorem updateUser_ok_state {id : Nat} {dto : UpdateUserDto}
    {st st' : DbState} {u' : User}
    (h : updateUser id dto st = .ok (st', u')) :
    ∃ u, findByPk st.rows id = some u ∧
      u' = applyUpdate dto u ∧
      st' = { st with rows := st.rows.map (fun v => if v.id = u'.id then u' else v) } ∧
      (∀ w ∈ st.rows, w.id ≠ u'.id → w.email ≠ u'.email) := by
  unfold updateUser at h
  dsimp only at h
  by_cases hconf : (match dto.email with
    | some e =>
      match findByEmail st.rows e with
      | some ex => decide (ex.id ≠ id)
      | none => false
    | none => false) = true
  · rw [if_pos hconf] at h; cases h
  · rw [if_neg hconf] at h
    cases hfind : findByPk st.rows id with
    | none => rw [hfind] at h; cases h
    | some u =>
      rw [hfind] at h
      dsimp only at h
      refine ⟨u, rfl, ?_⟩
      by_cases hany : (st.rows.any (fun v =>
          v.id ≠ (applyUpdate dto u).id && v.email = (applyUpdate dto u).email)) = true
      · rw [if_pos hany] at h; cases h
      · rw [if_neg hany] at h
        simp only [Except.ok.injEq, Prod.mk.injEq] at h
        obtain ⟨hs, hu⟩ := h
        subst hu
        refine ⟨rfl, hs.symm, ?_⟩
        intro w hw hwid hwe
        refine hany (List.any_eq_true.mpr ⟨w, hw, ?_⟩)
        rw [Bool.and_eq_true]
        exact ⟨decide_eq_true hwid, decide_eq_true hwe⟩

/-- Anatomy of a successful Express `deleteUser`: the target was found
among visible rows and only its soft-delete marker is stamped. -/
theorem deleteUser_ok_state {now id : Nat} {st st' : DbState}
    (h : deleteUser now id st = .ok st') :
    ∃ u, findByPk st.rows id = some u ∧
      st' = { st with rows := st.rows.map (fun v =>
        if v.id = u.id then { v with deletedAt := some now } else v) } := by
  unfold deleteUser repoDelete at h
  cases hfind : findByPk st.rows id with
  | none => rw [hfind] at h; cases h
  | some u =>
    rw [hfind] at h
    dsimp only at h
    simp only [Except.ok.injEq] at h
    exact ⟨u, rfl, h.symm⟩

/-- One CRUD request preserves well-formedness of the Sequelize users
table. -/
theorem wf_step_express (now : Nat) (op : Op) (st : DbState)
    (hwf : WF st) : WF (step now op st) := by
  obtain ⟨hids, hbound, hemails⟩ := hwf
  cases op with
  | createOp dto =>
    unfold step
    dsimp only
    cases hc : createUser now dto st with
    | error e => exact ⟨hids, hbound, hemails⟩
    | ok p =>
      obtain ⟨st1, u1⟩ := p
      dsimp only
      obtain ⟨hall, hs, hid, hemail⟩ := createUser_ok_state hc
      subst hs
      refine ⟨?_, ?_, ?_⟩
      · rw [List.map_append, List.nodup_append]
        refine ⟨hids, List.nodup_singleton _, ?_⟩
        intro a ha hb
        rcases List.mem_map.mp ha with ⟨w, hw, hwa⟩
        simp only [List.map_cons, List.map_nil, List.mem_singleton] at hb
        have := hbound w hw
        omega
      · intro v hv
        rcases List.mem_append.mp hv with hv | hv
        · exact Nat.lt_succ_of_lt (hbound v hv)
        · simp only [List.mem_singleton] at hv
          subst hv
          exact lt_of_eq_of_lt hid (Nat.lt_succ_self _)
      · rw [List.map_append, List.nodup_append]
        refine ⟨hemails, List.nodup_singleton _, ?_⟩
        intro a ha hb
        rcases List.mem_map.mp ha with ⟨w, hw, hwa⟩
        simp only [List.map_cons, List.map_nil, List.mem_singleton] at hb
        subst hb
        exact hall w hw (hwa.trans hemail)
  | updateOp id dto =>
    unfold step
    dsimp only
    cases hc : updateUser id dto st with
    | error e => exact ⟨hids, hbound, hemails⟩
    | ok p =>
      obtain ⟨st1, u2⟩ := p
      dsimp only
      obtain ⟨u, hfind, hu2, hs, hcon⟩ := updateUser_ok_state hc
      subst hu2
      subst hs
      refine ⟨?_, ?_, ?_⟩
      · rw [map_replace_preserve User.id User.id (applyUpdate dto u).id
          (fun x => applyUpdate dto u) (fun v h => h.symm)]
        exact hids
      · intro v hv
        rcases List.mem_map.mp hv with ⟨w, hw, hwv⟩
        have hvid : v.id = w.id := by
          by_cases h : w.id = (applyUpdate dto u).id
          · rw [← hwv, if_pos h]
            exact h.symm
          · rw [← hwv, if_neg h]
        rw [hvid]
        exact hbound w hw
      · refine nodup_map_replace User.id User.email (applyUpdate dto u).id
          (fun x => applyUpdate dto u) st.rows hids hemails ?_
        intro v hv hvk w hw hwk
        exact hcon w hw hwk
  | removeOp id =>
    unfold step
    dsimp only
    cases hc : deleteUser now id st with
    | error e => exact ⟨hids, hbound, hemails⟩
    | ok st1 =>
      dsimp only
      obtain ⟨u, hfind, hs⟩ := deleteUser_ok_state hc
      subst hs
      refine ⟨?_, ?_, ?_⟩
      · rw [map_replace_preserve User.id User.id u.id
          (fun v => { v with deletedAt := some now }) (fun v h => rfl)]
        exact hids
      · intro v hv
        rcases List.mem_map.mp hv with ⟨w, hw, hwv⟩
        have hvid : v.id = w.id := by
          by_cases h : w.id = u.id
          · rw [← hwv, if_pos h]
          · rw [← hwv, if_neg h]
        rw [hvid]
        exact hbound w hw
      · rw [map_replace_preserve User.id User.email u.id
          (fun v => { v with deletedAt := some now }) (fun v h => rfl)]
        exact hemails

/-- A sequence of CRUD requests preserves well-formedness of the
Sequelize users table. -/
theorem wf_run_express (now : Nat) (ops : List Op) (st : DbState)
    (hwf : WF st) : WF (run now ops st) := by
  induction ops generalizing st with
  | nil => exact hwf
  | cons op ops ih =>
    rw [show run now (op :: ops) st = run now ops (step now op st) from rfl]
    exact ih _ (wf_step_express now op st hwf)

end Xp

namespace Nest

/-- C2 (amended): email uniqueness is an invariant of the whole user
store.  `create` raises the 409 conflict exactly when a visible
(non-soft-deleted) row already holds the requested email; when only a
soft-deleted row holds it, the save instead violates the UQ_users_email
unique constraint and throws a `QueryFailedError`, which the global
filter translates to 500; every failing create leaves the store
unchanged.  `update` raises the 409 conflict when it moves the email to
one held by a visible row other than the target.  After any sequence of
create/update/delete requests on a well-formed store, all stored rows —
soft-deleted included — have pairwise distinct emails; the Express
template behaves the same way (its unique-index collision is rethrown as
the 500 `DatabaseError`). -/
theorem email_uniqueness
    (hash : String → String) (now : Nat) (dto : CreateUserDto)
    (id : Nat) (udto : UpdateUserDto) (s : ServiceState) (hwf : WF s)
    (xnow : Nat) (xdto : Xp.CreateUserDto) (xst : Xp.DbState) (hxwf : Xp.WF xst) :
    (create hash now dto s = .error (.http (.conflict "Email already exists")) ↔
      ∃ u ∈ activeUsers s, u.email = dto.email) ∧
    ((¬ ∃ u ∈ activeUsers s, u.email = dto.email) →
      (∃ v ∈ s.users, v.email = dto.email) →
      create hash now dto s = .error (.queryFailed uniqueViolationMessage) ∧
      (catchException false (.queryFailed uniqueViolationMessage)).status = 500) ∧
    (∀ e, create hash now dto s = .error e → step hash now (.createOp dto) s = s) ∧
    (∀ u e, findOneById s id = some u → udto.email = some e → e ≠ u.email →
      (∃ v ∈ activeUsers s, v.email = e) →
      update hash id udto s = .error (.http (.conflict "Email already exists"))) ∧
    (∀ ops : List Op, ((run hash now ops s).users.map User.email).Nodup) ∧
    (Xp.createUser xnow xdto xst =
        .error (.conflict "User with this email already exists") ↔
      ∃ u ∈ xst.rows.filter (fun u => u.deletedAt = none), u.email = xdto.email) ∧
    (∀ xops : List Xp.Op, ((Xp.run xnow xops xst).rows.map Xp.User.email).Nodup) := by
  refine ⟨create_error_iff, ?_, ?_, ?_, ?_, Xp.createUser_conflict_iff, ?_⟩
  · intro hno hex
    have hnone : findOneByEmail s dto.email = none := by
      rw [findOneByEmail_eq_none_iff]
      intro u hu hue
      exact hno ⟨u, hu, hue⟩
    exact ⟨create_queryFailed hnone hex, rfl⟩
  · intro e he
    unfold step
    dsimp only
    rw [he]
  · intro u e hfind hde hne hex
    unfold update findOne
    rw [hfind]
    dsimp only
    rw [hde]
    dsimp only
    rw [if_pos hne]
    rw [findOneByEmail_isSome_iff.mpr hex]
    rfl
  · intro ops
    exact (WF_run hash now ops s hwf).2.2
  · intro xops
    exact (Xp.wf_run_express xnow xops xst hxwf).2.2

/-- Witness for C2: with one visible row holding the email, `create`
raises the conflict; and concrete request sequences — including a create
that collides with a soft-deleted row — keep the stored emails distinct
in both templates. -/
theorem email_uniqueness_witness :
    create (fun p => p) 0 ⟨"Ada", "L", "a@b.c", "pw", none⟩
        { users := [⟨0, "Eve", "H", "a@b.c", "pw", .user, true, none, 0, 0, none, 1⟩],
          nextId := 1 } = .error (.http (.conflict "Email already exists")) ∧
    ((run (fun p => p) 0
        [.createOp ⟨"Ada", "L", "a@b.c", "pw", none⟩,
         .createOp ⟨"Bob", "M", "b@b.c", "pw", none⟩,
         .removeOp 0,
         .createOp ⟨"Cal", "N", "a@b.c", "pw", none⟩]
        ServiceState.empty).users.map User.email).Nodup ∧
    ((Xp.run 0
        [.createOp ⟨"a@b.c", "pw", "Ada", "L"⟩,
         .removeOp 0,
         .createOp ⟨"a@b.c", "pw", "Eve", "H"⟩]
        Xp.DbState.empty).rows.map Xp.User.email).Nodup := by
  have h1 := email_uniqueness (fun p => p) 0 ⟨"Ada", "L", "a@b.c", "pw", none⟩
    0 ⟨none, none, none, none, none, none⟩
    { users := [⟨0, "Eve", "H", "a@b.c", "pw", .user, true, none, 0, 0, none, 1⟩],
      nextId := 1 } (by decide)
    0 ⟨"a@b.c", "pw", "Ada", "L"⟩ Xp.DbState.empty (by decide)
  have h2 := email_uniqueness (fun p => p) 0 ⟨"Ada", "L", "a@b.c", "pw", none⟩
    0 ⟨none, none, none, none, none, none⟩ ServiceState.empty (by decide)
    0 ⟨"a@b.c", "pw", "Ada", "L"⟩ Xp.DbState.empty (by decide)
  refine ⟨h1.1.mpr ⟨⟨0, "Eve", "H", "a@b.c", "pw", .user, true, none, 0, 0, none, 1⟩,
    by decide, rfl⟩, ?_, ?_⟩
  · exact h2.2.2.2.2.1
      [.createOp ⟨"Ada", "L", "a@b.c", "pw", none⟩,
       .createOp ⟨"Bob", "M", "b@b.c", "pw", none⟩,
       .removeOp 0,
       .createOp ⟨"Cal", "N", "a@b.c", "pw", none⟩]
  · exact h2.2.2.2.2.2.2
      [.createOp ⟨"a@b.c", "pw", "Ada", "L"⟩,
       .removeOp 0,
       .createOp ⟨"a@b.c", "pw", "Eve", "H"⟩]

/-- C3: login raises 401 Unauthorized exactly when no user holds the
email, or the account is deactivated, or the bcrypt comparison fails;
otherwise it returns the auth response whose bearer token is signed over
a payload carrying the user id (as subject) and role. -/
theorem login_unauthorized_iff
    (compare : String → String → Bool) (sign : JwtPayload → String)
    (expiresIn : String) (now : Nat) (dto : LoginDto) (s : ServiceState) :
    ((∃ e, login compare sign expiresIn now dto s = .error e ∧ e.status = 401) ↔
      findOneByEmail s dto.email = none ∨
        ∃ u, findOneByEmail s dto.email = some u ∧
          (u.isActive = false ∨ compare dto.password u.password = false)) ∧
    (∀ u, findOneByEmail s dto.email = some u → u.isActive = true →
      compare dto.password u.password = true →
      login compare sign expiresIn now dto s =
        .ok (updateLastLogin now u.id s, generateAuthResponse sign expiresIn u) ∧
      (generateAuthResponse sign expiresIn u).accessToken =
        sign { sub := u.id, email := u.email, role := u.role } ∧
      (generateAuthResponse sign expiresIn u).tokenType = "Bearer") := by
  constructor
  · unfold login
    cases hfind : findOneByEmail s dto.email with
    | none =>
      constructor
      · intro _
        exact Or.inl rfl
      · intro _
        exact ⟨.unauthorized "Invalid credentials", rfl, rfl⟩
    | some u =>
      dsimp only
      by_cases hact : u.isActive = false
      · rw [if_pos hact]
        constructor
        · intro _
          exact Or.inr ⟨u, rfl, Or.inl hact⟩
        · intro _
          exact ⟨.unauthorized "Account is deactivated", rfl, rfl⟩
      · rw [if_neg hact]
        by_cases hcmp : compare dto.password u.password = false
        · rw [if_pos hcmp]
          constructor
          · intro _
            exact Or.inr ⟨u, rfl, Or.inr hcmp⟩
          · intro _
            exact ⟨.unauthorized "Invalid credentials", rfl, rfl⟩
        · rw [if_neg hcmp]
          constructor
          · rintro ⟨e, he, -⟩
            cases he
          · rintro (h | ⟨u2, hu2, h2⟩)
            · cases h
            · rw [Option.some.injEq] at hu2
              subst hu2
              rcases h2 with h2 | h2
              · exact absurd h2 hact
              · exact absurd h2 hcmp
  · intro u hfind hact hcmp
    unfold login
    rw [hfind]
    dsimp only
    rw [if_neg (by rw [hact]; exact fun h => Bool.noConfusion h)]
    rw [if_neg (by rw [hcmp]; exact fun h => Bool.noConfusion h)]
    exact ⟨rfl, rfl, rfl⟩

/-- Witness for C3: a concrete successful login returns the token signed
over the user id and role; flipping the stored active flag yields 401. -/
theorem login_unauthorized_iff_witness :
    login (fun a b => a = b) (fun p => toString p.sub ++ "/" ++ p.role.str) "1d" 5
        ⟨"a@b.c", "pw"⟩
        { users := [⟨3, "Ada", "L", "a@b.c", "pw", .admin, true, none, 0, 0, none, 1⟩],
          nextId := 4 } =
      .ok (updateLastLogin 5 3
             { users := [⟨3, "Ada", "L", "a@b.c", "pw", .admin, true, none, 0, 0, none, 1⟩],
               nextId := 4 },
           generateAuthResponse (fun p => toString p.sub ++ "/" ++ p.role.str) "1d"
             ⟨3, "Ada", "L", "a@b.c", "pw", .admin, true, none, 0, 0, none, 1⟩) ∧
    (∃ e, login (fun a b => a = b) (fun p => toString p.sub ++ "/" ++ p.role.str) "1d" 5
        ⟨"a@b.c", "pw"⟩
        { users := [⟨3, "Ada", "L", "a@b.c", "pw", .admin, false, none, 0, 0, none, 1⟩],
          nextId := 4 } = .error e ∧ e.status = 401) := by
  have h1 := login_unauthorized_iff (fun a b => a = b)
    (fun p => toString p.sub ++ "/" ++ p.role.str) "1d" 5 ⟨"a@b.c", "pw"⟩
    { users := [⟨3, "Ada", "L", "a@b.c", "pw", .admin, true, none, 0, 0, none, 1⟩],
      nextId := 4 }
  have h2 := login_unauthorized_iff (fun a b => a = b)
    (fun p => toString p.sub ++ "/" ++ p.role.str) "1d" 5 ⟨"a@b.c", "pw"⟩
    { users := [⟨3, "Ada", "L", "a@b.c", "pw", .admin, false, none, 0, 0, none, 1⟩],
      nextId := 4 }
  refine ⟨(h1.2 ⟨3, "Ada", "L", "a@b.c", "pw", .admin, true, none, 0, 0, none, 1⟩
    (by decide) rfl (by decide)).1, ?_⟩
  exact h2.1.mpr (Or.inr ⟨⟨3, "Ada", "L", "a@b.c", "pw", .admin, false, none, 0, 0, none, 1⟩,
    by decide, Or.inl rfl⟩)

/-- Counterexample to C2 as stated: soft delete keeps the record
stored, so after create then delete of a user a stored row still holds
the email; creating the same email again then raises no 409 conflict —
the service check sees no visible holder, and the save fails on the
UQ_users_email unique constraint with a `QueryFailedError` that the
global filter translates to 500, not 409. -/
theorem email_uniqueness_counterexample :
    (∃ u ∈ (run (fun p => p) 0
        [.createOp ⟨"Ada", "L", "a@b.c", "pw", none⟩, .removeOp 0]
        ServiceState.empty).users, u.email = "a@b.c") ∧
    create (fun p => p) 0 ⟨"Ada", "L", "a@b.c", "pw", none⟩
      (run (fun p => p) 0
        [.createOp ⟨"Ada", "L", "a@b.c", "pw", none⟩, .removeOp 0]
        ServiceState.empty) =
      .error (.queryFailed uniqueViolationMessage) ∧
    (catchException false (.queryFailed uniqueViolationMessage)).status = 500 := by
  refine ⟨⟨⟨0, "Ada", "L", "a@b.c", "pw", .user, true, none, 0, 0, some 0, 1⟩,
    by decide, rfl⟩, by rfl, rfl⟩

end Nest

/-! ### C4: pagination math -/

theorem length_insertSorted {α : Type} (le : α → α → Bool) (a : α) (l : List α) :
    (insertSorted le a l).length = l.length + 1 := by
  induction l with
  | nil => rfl
  | cons b t ih =>
    unfold insertSorted
    by_cases h : le a b = true
    · rw [if_pos h]
      rfl
    · rw [if_neg h]
      simp [ih]

theorem length_insertionSort {α : Type} (le : α → α → Bool) (l : List α) :
    (insertionSort le l).length = l.length := by
  induction l with
  | nil => rfl
  | cons a t ih =>
    unfold insertionSort
    rw [length_insertSorted, ih]
    rfl

/-- The natural-division form of Math.ceil(total / limit) is the least m
with total ≤ m * limit. -/
theorem ceil_div_le_iff (total limit m : Nat) (hl : 1 ≤ limit) :
    (total + limit - 1) / limit ≤ m ↔ total ≤ m * limit := by
  rw [Nat.div_le_iff_le_mul_add_pred (by omega)]
  rw [Nat.mul_comm m limit]
  generalize limit * m = A
  omega

/-- C4 (amended): both list queries use the offset (page - 1) * limit
(the claim stated page * limit; see the counterexample), return at most
limit rows, and report totalPages as the ceiling of total / limit; the
NestJS metadata sets hasNextPage exactly when page < totalPages and
hasPreviousPage exactly when page > 1; the Express controller metadata
reports the same ceiling. -/
theorem pagination_math (q : Nest.QueryUserDto) (s : Nest.ServiceState)
    (hp : 1 ≤ q.page.getD 1) (hl : 1 ≤ q.limit.getD 10) :
    ((Nest.findAll q s).pagination.page = q.page.getD 1 ∧
     (Nest.findAll q s).pagination.limit = q.limit.getD 10 ∧
     (Nest.findAll q s).pagination.total = (Nest.findAllMatching q s).length) ∧
    (Nest.findAll q s).data.length ≤ q.limit.getD 10 ∧
    (∀ i, i < q.limit.getD 10 →
      (Nest.findAll q s).data[i]? =
        (Nest.findAllMatching q s)[(q.page.getD 1 - 1) * q.limit.getD 10 + i]?) ∧
    (∀ m, (Nest.findAll q s).pagination.totalPages ≤ m ↔
      (Nest.findAll q s).pagination.total ≤ m * q.limit.getD 10) ∧
    ((Nest.findAll q s).pagination.hasNextPage = true ↔
      q.page.getD 1 < (Nest.findAll q s).pagination.totalPages) ∧
    ((Nest.findAll q s).pagination.hasPreviousPage = true ↔ 1 < q.page.getD 1) ∧
    (∀ (page pageSize : Nat) (search : Option String) (db : List Xp.User),
      1 ≤ pageSize →
      (Xp.repoFindAll page pageSize search db).1.length ≤ pageSize ∧
      (Xp.repoFindAll page pageSize search db).2 = (Xp.repoMatching search db).length ∧
      (∀ i, i < pageSize →
        (Xp.repoFindAll page pageSize search db).1[i]? =
          (Xp.repoMatching search db)[(page - 1) * pageSize + i]?)) ∧
    (∀ r : Xp.GetAllResult, 1 ≤ r.pageSize.toNat → ∀ m,
      (Xp.controllerMeta r).totalPages ≤ m ↔ r.total ≤ m * r.pageSize.toNat) := by
  refine ⟨⟨rfl, rfl, rfl⟩, ?_, ?_, ?_, ?_, ?_, ?_, ?_⟩
  · exact List.length_take_le _ _
  · intro i hi
    show (((Nest.findAllMatching q s).drop ((q.page.getD 1 - 1) * q.limit.getD 10)).take
      (q.limit.getD 10))[i]? = _
    rw [List.getElem?_take]
    rw [if_pos hi]
    exact List.getElem?_drop _ _ _
  · intro m
    exact ceil_div_le_iff _ _ m hl
  · show decide (q.page.getD 1 < _) = true ↔ _
    rw [decide_eq_true_eq]
    exact Iff.rfl
  · show decide (q.page.getD 1 > 1) = true ↔ _
    rw [decide_eq_true_eq]
  · intro page pageSize search db hps
    refine ⟨List.length_take_le _ _, rfl, ?_⟩
    intro i hi
    show (((Xp.repoMatching search db).drop ((page - 1) * pageSize)).take pageSize)[i]? = _
    rw [List.getElem?_take]
    rw [if_pos hi]
    exact List.getElem?_drop _ _ _
  · intro r hr m
    exact ceil_div_le_iff _ _ m hr

/-- Witness for C4: two pages of size two over three users. -/
theorem pagination_math_witness :
    (Nest.findAll ⟨some 2, some 2, none, none, none, none⟩
      { users :=
          [⟨0, "Ada", "L", "a@b.c", "pw", .user, true, none, 3, 3, none, 1⟩,
           ⟨1, "Bob", "M", "b@b.c", "pw", .user, true, none, 2, 2, none, 1⟩,
           ⟨2, "Cal", "N", "c@b.c", "pw", .user, true, none, 1, 1, none, 1⟩],
        nextId := 3 }).data.length ≤ 2 ∧
    ((Nest.findAll ⟨some 2, some 2, none, none, none, none⟩
      { users :=
          [⟨0, "Ada", "L", "a@b.c", "pw", .user, true, none, 3, 3, none, 1⟩,
           ⟨1, "Bob", "M", "b@b.c", "pw", .user, true, none, 2, 2, none, 1⟩,
           ⟨2, "Cal", "N", "c@b.c", "pw", .user, true, none, 1, 1, none, 1⟩],
        nextId := 3 }).pagination.totalPages ≤ 2 ↔
      (Nest.findAll ⟨some 2, some 2, none, none, none, none⟩
      { users :=
          [⟨0, "Ada", "L", "a@b.c", "pw", .user, true, none, 3, 3, none, 1⟩,
           ⟨1, "Bob", "M", "b@b.c", "pw", .user, true, none, 2, 2, none, 1⟩,
           ⟨2, "Cal", "N", "c@b.c", "pw", .user, true, none, 1, 1, none, 1⟩],
        nextId := 3 }).pagination.total ≤ 2 * 2) := by
  have h := pagination_math ⟨some 2, some 2, none, none, none, none⟩
    { users :=
        [⟨0, "Ada", "L", "a@b.c", "pw", .user, true, none, 3, 3, none, 1⟩,
         ⟨1, "Bob", "M", "b@b.c", "pw", .user, true, none, 2, 2, none, 1⟩,
         ⟨2, "Cal", "N", "c@b.c", "pw", .user, true, none, 1, 1, none, 1⟩],
      nextId := 3 } (by decide) (by decide)
  exact ⟨h.2.1, h.2.2.2.1 2⟩

/-- Counterexample to C4 as stated: with three matching users, page 2
and limit 1, the returned row is the one at offset (2 - 1) * 1 = 1, not
the one at the claimed offset 2 * 1 = 2. -/
theorem pagination_offset_counterexample :
    (Nest.findAll ⟨some 2, some 1, none, none, none, none⟩
      { users :=
          [⟨0, "Ada", "L", "a@b.c", "pw", .user, true, none, 3, 3, none, 1⟩,
           ⟨1, "Bob", "M", "b@b.c", "pw", .user, true, none, 2, 2, none, 1⟩,
           ⟨2, "Cal", "N", "c@b.c", "pw", .user, true, none, 1, 1, none, 1⟩],
        nextId := 3 }).data[0]? ≠
      (Nest.findAllMatching ⟨some 2, some 1, none, none, none, none⟩
      { users :=
          [⟨0, "Ada", "L", "a@b.c", "pw", .user, true, none, 3, 3, none, 1⟩,
           ⟨1, "Bob", "M", "b@b.c", "pw", .user, true, none, 2, 2, none, 1⟩,
           ⟨2, "Cal", "N", "c@b.c", "pw", .user, true, none, 1, 1, none, 1⟩],
        nextId := 3 })[2 * 1]? ∧
    (Nest.findAll ⟨some 2, some 1, none, none, none, none⟩
      { users :=
          [⟨0, "Ada", "L", "a@b.c", "pw", .user, true, none, 3, 3, none, 1⟩,
           ⟨1, "Bob", "M", "b@b.c", "pw", .user, true, none, 2, 2, none, 1⟩,
           ⟨2, "Cal", "N", "c@b.c", "pw", .user, true, none, 1, 1, none, 1⟩],
        nextId := 3 }).data[0]? =
      (Nest.findAllMatching ⟨some 2, some 1, none, none, none, none⟩
      { users :=
          [⟨0, "Ada", "L", "a@b.c", "pw", .user, true, none, 3, 3, none, 1⟩,
           ⟨1, "Bob", "M", "b@b.c", "pw", .user, true, none, 2, 2, none, 1⟩,
           ⟨2, "Cal", "N", "c@b.c", "pw", .user, true, none, 1, 1, none, 1⟩],
        nextId := 3 })[(2 - 1) * 1]? := by
  refine ⟨by decide, by decide⟩

/-! ### C5: exception-to-JSON translation -/

/-- C5: both global handlers translate every exception into a body with
success = false (and a message string); the response status is the
exception's own status code whenever it carries one among 400, 401, 403,
404, 409, 500, and 500 for exceptions that carry no HTTP status. -/
theorem exception_translation (dbg : Bool) (exc : CaughtException)
    (ts : String) (err : Xp.CaughtError) :
    (catchException dbg exc).body.success = false ∧
    (∀ st, exc.getStatus = some st → st ∈ [400, 401, 403, 404, 409, 500] →
      (catchException dbg exc).status = st) ∧
    (exc.getStatus = none → (catchException dbg exc).status = 500) ∧
    ((Xp.errorHandler err ts).body.getProp "success" = some (.bool false)) ∧
    (∀ st m, err = .appError st m → (Xp.errorHandler err ts).status = st ∧
      ((Xp.errorHandler err ts).body.getProp "error").map
        (fun e => e.getProp "message") = some (some (.str m))) ∧
    (∀ m es, err = .validationErr m es → (Xp.errorHandler err ts).status = 400) ∧
    (∀ m, err = .plainError m → (Xp.errorHandler err ts).status = 500) := by
  refine ⟨?_, ?_, ?_, ?_, ?_, ?_, ?_⟩
  · cases exc <;> rfl
  · intro st hst hmem
    cases exc with
    | httpString s r => cases hst; rfl
    | httpObject s m e => cases hst; rfl
    | httpValidation s m => cases hst; rfl
    | queryFailed m => cases hst
    | otherError m => cases hst
  · intro hst
    cases exc with
    | httpString s r => cases hst
    | httpObject s m e => cases hst
    | httpValidation s m => cases hst
    | queryFailed m => rfl
    | otherError m => rfl
  · cases err <;> rfl
  · intro st m h
    subst h
    exact ⟨rfl, rfl⟩
  · intro m es h
    subst h
    rfl
  · intro m h
    subst h
    rfl

/-- Witness for C5: a concrete 409 conflict keeps its status with a
success = false body, and a statusless error maps to 500. -/
theorem exception_translation_witness :
    (catchException false (.httpObject 409 (some "Email already exists") none)).status = 409 ∧
    (catchException false (.httpObject 409 (some "Email already exists") none)).body.success
      = false ∧
    (catchException false (.otherError "boom")).status = 500 ∧
    (Xp.errorHandler (.appError 404 "User not found") "t0").status = 404 := by
  have h1 := exception_translation false (.httpObject 409 (some "Email already exists") none)
    "t0" (.appError 404 "User not found")
  have h2 := exception_translation false (.otherError "boom")
    "t0" (.appError 404 "User not found")
  exact ⟨h1.2.1 409 rfl (by decide), h1.1, h2.2.2.1 rfl,
    (h1.2.2.2.2.1 404 "User not found" rfl).1⟩

/-! ### C6: success envelope shape -/

/-- Unwrapped interceptor output: a payload that is not already an
envelope and has no own message property is wrapped into exactly
success, message, data. -/
theorem intercept_unwrapped (method path : String) (data : JVal)
    (hnw : (data.hasProp "success" && data.hasProp "message") = false)
    (hnm : data.getProp "message" = none) :
    intercept method path data =
      .obj [("success", .bool true),
            ("message", .str (generateSuccessMessage method path)),
            ("data", data)] := by
  unfold intercept
  rw [if_neg (by rw [hnw]; exact fun h => Bool.noConfusion h)]
  simp only [hnm]
  rfl

/-- C6 (amended): a NestJS success envelope holds exactly success (true),
message and data; for the users list endpoint the pagination metadata
sits inside data, not at top level.  An Express success envelope holds
exactly success (true), data, message and timestamp, with the pagination
of list endpoints nested inside data.  (The claim as stated fails: see
the counterexample for the extra timestamp field and the nested
pagination.) -/
theorem response_envelope (method path : String) (data : JVal)
    (hnw : (data.hasProp "success" && data.hasProp "message") = false)
    (hnm : data.getProp "message" = none)
    (payload : JVal) (msg : String) (code : Nat) (ts : String)
    (items : List JVal) (pag : Xp.PaginationMeta)
    (q : Nest.QueryUserDto) (s : Nest.ServiceState) :
    ((intercept method path data).objKeys = ["success", "message", "data"] ∧
     (intercept method path data).getProp "success" = some (.bool true) ∧
     (intercept method path data).getProp "data" = some data) ∧
    ((intercept method path (nestFindAllHandlerOutput q s)).objKeys =
       ["success", "message", "data"] ∧
     ((intercept method path (nestFindAllHandlerOutput q s)).getProp "data").map
        (fun d => d.hasProp "pagination") = some true) ∧
    ((Xp.successResponse payload msg code ts).body.objKeys =
       ["success", "data", "message", "timestamp"] ∧
     (Xp.successResponse payload msg code ts).body.getProp "success" =
       some (.bool true)) ∧
    ((Xp.paginatedResponse items pag msg code ts).body.objKeys =
       ["success", "data", "message", "timestamp"] ∧
     ((Xp.paginatedResponse items pag msg code ts).body.getProp "data").map
        (fun d => d.hasProp "pagination") = some true) := by
  have hmain := intercept_unwrapped method path data hnw hnm
  have hlist := intercept_unwrapped method path (nestFindAllHandlerOutput q s)
    (by rfl) (by rfl)
  refine ⟨⟨?_, ?_, ?_⟩, ⟨?_, ?_⟩, ⟨rfl, rfl⟩, ⟨rfl, rfl⟩⟩
  · rw [hmain]; rfl
  · rw [hmain]; rfl
  · rw [hmain]; rfl
  · rw [hlist]; rfl
  · rw [hlist]; rfl

/-- Witness for C6: the wrapped shape at a concrete payload. -/
theorem response_envelope_witness :
    (intercept "GET" "/api/users/me" (.obj [("id", .num 1)])).objKeys =
      ["success", "message", "data"] ∧
    (Xp.successResponse .null "Success" 200 "t0").body.objKeys =
      ["success", "data", "message", "timestamp"] := by
  have h := response_envelope "GET" "/api/users/me" (.obj [("id", .num 1)])
    (by rfl) (by rfl) .null "Success" 200 "t0" [] ⟨1, 10, 0, 0⟩
    ⟨some 1, some 10, none, none, none, none⟩ Nest.ServiceState.empty
  exact ⟨h.1.1, h.2.2.1.1⟩

/-- Counterexample to C6 as stated: the Express success envelope carries
a timestamp field beyond success, message, data, pagination; and the
NestJS list envelope has no top-level pagination field (it sits inside
data). -/
theorem response_envelope_counterexample :
    "timestamp" ∈ (Xp.successResponse .null "Success" 200 "t0").body.objKeys ∧
    "timestamp" ∉ ["success", "message", "data", "pagination"] ∧
    "pagination" ∉ (intercept "GET" "/api/users"
        (nestFindAllHandlerOutput ⟨some 1, some 10, none, none, none, none⟩
          Nest.ServiceState.empty)).objKeys := by
  refine ⟨by decide, by decide, ?_⟩
  rw [intercept_unwrapped "GET" "/api/users"
    (nestFindAllHandlerOutput ⟨some 1, some 10, none, none, none, none⟩
      Nest.ServiceState.empty) (by rfl) (by rfl)]
  decide

/-! ### C7: role enum membership and default -/

/-- C7: every stored role value is one of admin, user, manager (the
NestJS enum declares exactly these three; the Express enum declares the
subset admin, user), and a user created without an explicit role gets
role user in both templates (the Express repository never forwards a
role at all). -/
theorem role_enum_membership :
    (∀ r : Nest.UserRole, r.str ∈ ["admin", "user", "manager"]) ∧
    (∀ r : Xp.Role, r.str ∈ ["admin", "user", "manager"]) ∧
    (∀ (hash : String → String) (now : Nat) (dto : Nest.CreateUserDto)
       (s s2 : Nest.ServiceState) (u : Nest.User),
      Nest.create hash now dto s = .ok (s2, u) → dto.role = none →
        u.role = .user) ∧
    (∀ (freshId now : Nat) (dto : Xp.CreateUserDto),
      (Xp.repoCreate freshId now dto).role = .user) := by
  refine ⟨?_, ?_, ?_, ?_⟩
  · intro r
    cases r <;> decide
  · intro r
    cases r <;> decide
  · intro hash now dto s s2 u hc hrole
    have h := (Nest.create_ok_state hc).2.2.2.2.2.2
    rw [h, hrole]
    rfl
  · intro freshId now dto
    rfl

/-- Witness for C7: a concrete create without a role yields role user. -/
theorem role_enum_membership_witness :
    (⟨0, "A", "B", "c@d.e", "pw", Nest.UserRole.user, true, none, 0, 0, none, 1⟩ :
      Nest.User).role = .user :=
  role_enum_membership.2.2.1 (fun p => p) 0 ⟨"A", "B", "c@d.e", "pw", none⟩
    Nest.ServiceState.empty
    { users := [⟨0, "A", "B", "c@d.e", "pw", .user, true, none, 0, 0, none, 1⟩],
      nextId := 1 }
    ⟨0, "A", "B", "c@d.e", "pw", .user, true, none, 0, 0, none, 1⟩ rfl rfl

/-! ### C8: soft delete frame -/

theorem findByPk_id {db : List Xp.User} {i : Nat} {u : Xp.User}
    (h : Xp.findByPk db i = some u) : u.id = i := by
  unfold Xp.findByPk at h
  have h2 := List.find?_some h
  exact of_decide_eq_true h2

/-- C8: deleting an existing user stamps only the soft-delete marker on
that row, leaving every other field and every other row unchanged;
deleting a missing id raises a 404 with the store unchanged.  Both
templates behave identically. -/
theorem soft_delete_frame (now id : Nat) (s : Nest.ServiceState)
    (xid : Nat) (xdb : List Xp.User) :
    (∀ u, Nest.findOneById s id = some u →
      ∃ s2, Nest.remove now id s = .ok s2 ∧
        s2.nextId = s.nextId ∧
        s2.users.length = s.users.length ∧
        (∀ (i : Nat) (v : Nest.User), s.users[i]? = some v →
          (v.id ≠ id → s2.users[i]? = some v) ∧
          (v.id = id → s2.users[i]? = some { v with deletedAt := some now }))) ∧
    (Nest.findOneById s id = none →
      (∃ m, Nest.remove now id s = .error (.notFound m) ∧
        HttpError.status (.notFound m) = 404) ∧
      (∀ hash : String → String, Nest.step hash now (.removeOp id) s = s)) ∧
    (∀ xu, Xp.findByPk xdb xid = some xu →
      ∃ db2, Xp.repoDelete now xid xdb = .ok db2 ∧
        db2.length = xdb.length ∧
        (∀ (i : Nat) (v : Xp.User), xdb[i]? = some v →
          (v.id ≠ xid → db2[i]? = some v) ∧
          (v.id = xid → db2[i]? = some { v with deletedAt := some now }))) ∧
    (Xp.findByPk xdb xid = none →
      ∃ m, Xp.repoDelete now xid xdb = .error (.notFound m) ∧
        HttpError.status (.notFound m) = 404) := by
  refine ⟨?_, ?_, ?_, ?_⟩
  · intro u hu
    have huid : u.id = id := (Nest.findOneById_mem hu).2
    have hrem : Nest.remove now id s = .ok { s with users := s.users.map (fun v =>
        if v.id = u.id then { v with deletedAt := some now } else v) } := by
      unfold Nest.remove Nest.findOne
      rw [hu]
    refine ⟨_, hrem, rfl, List.length_map _ _, ?_⟩
    intro i v hv
    constructor
    · intro hvid
      dsimp only
      rw [List.getElem?_map, hv, Option.map_some']
      rw [if_neg (by rw [huid]; exact hvid)]
    · intro hvid
      dsimp only
      rw [List.getElem?_map, hv, Option.map_some']
      rw [if_pos (by rw [huid]; exact hvid)]
  · intro hnone
    have hrem : Nest.remove now id s =
        .error (.notFound ("User with ID " ++ toString id ++ " not found")) := by
      unfold Nest.remove Nest.findOne
      rw [hnone]
    refine ⟨⟨_, hrem, rfl⟩, ?_⟩
    intro hash
    unfold Nest.step
    dsimp only
    rw [hrem]
  · intro xu hxu
    have hxid : xu.id = xid := findByPk_id hxu
    have hdel : Xp.repoDelete now xid xdb = .ok (xdb.map (fun v =>
        if v.id = xu.id then { v with deletedAt := some now } else v)) := by
      unfold Xp.repoDelete
      rw [hxu]
    refine ⟨_, hdel, List.length_map _ _, ?_⟩
    intro i v hv
    constructor
    · intro hvid
      rw [List.getElem?_map, hv, Option.map_some']
      rw [if_neg (by rw [hxid]; exact hvid)]
    · intro hvid
      rw [List.getElem?_map, hv, Option.map_some']
      rw [if_pos (by rw [hxid]; exact hvid)]
  · intro hnone
    refine ⟨"User with identifier \x27" ++ toString xid ++ "\x27 not found", ?_, rfl⟩
    unfold Xp.repoDelete
    rw [hnone]

/-- Witness for C8: deleting id 0 in a two-row store stamps only row 0;
deleting a missing id raises the 404. -/
theorem soft_delete_frame_witness :
    (∃ s2, Nest.remove 9 0
      { users :=
          [⟨0, "Ada", "L", "a@b.c", "pw", .user, true, none, 0, 0, none, 1⟩,
           ⟨1, "Bob", "M", "b@b.c", "pw", .user, true, none, 0, 0, none, 1⟩],
        nextId := 2 } = .ok s2 ∧
      s2.nextId = 2 ∧
      s2.users.length = 2 ∧
      (∀ (i : Nat) (v : Nest.User),
        ({ users :=
            [⟨0, "Ada", "L", "a@b.c", "pw", .user, true, none, 0, 0, none, 1⟩,
             ⟨1, "Bob", "M", "b@b.c", "pw", .user, true, none, 0, 0, none, 1⟩],
           nextId := 2 } : Nest.ServiceState).users[i]? = some v →
        (v.id ≠ 0 → s2.users[i]? = some v) ∧
        (v.id = 0 → s2.users[i]? = some { v with deletedAt := some 9 }))) ∧
    (∃ m, Nest.remove 9 7
      { users :=
          [⟨0, "Ada", "L", "a@b.c", "pw", .user, true, none, 0, 0, none, 1⟩],
        nextId := 1 } = .error (.notFound m) ∧
      HttpError.status (.notFound m) = 404) := by
  have h1 := soft_delete_frame 9 0
    { users :=
        [⟨0, "Ada", "L", "a@b.c", "pw", .user, true, none, 0, 0, none, 1⟩,
         ⟨1, "Bob", "M", "b@b.c", "pw", .user, true, none, 0, 0, none, 1⟩],
      nextId := 2 } 0 []
  have h2 := soft_delete_frame 9 7
    { users :=
        [⟨0, "Ada", "L", "a@b.c", "pw", .user, true, none, 0, 0, none, 1⟩],
      nextId := 1 } 0 []
  exact ⟨h1.1 ⟨0, "Ada", "L", "a@b.c", "pw", .user, true, none, 0, 0, none, 1⟩ rfl,
    (h2.2.1 rfl).1⟩

/-! ### C9: password never serialized -/

theorem login_ok_user {compare : String → String → Bool}
    {sign : Nest.JwtPayload → String} {expiresIn : String} {now : Nat}
    {dto : Nest.LoginDto} {s : Nest.ServiceState}
    {p : Nest.ServiceState × Nest.AuthResponse}
    (h : Nest.login compare sign expiresIn now dto s = .ok p) :
    ∃ u, p.2 = Nest.generateAuthResponse sign expiresIn u := by
  unfold Nest.login at h
  cases hf : Nest.findOneByEmail s dto.email with
  | none => rw [hf] at h; cases h
  | some u =>
    rw [hf] at h
    dsimp only at h
    by_cases h1 : u.isActive = false
    · rw [if_pos h1] at h; cases h
    · rw [if_neg h1] at h
      by_cases h2 : compare dto.password u.password = false
      · rw [if_pos h2] at h; cases h
      · rw [if_neg h2] at h
        refine ⟨u, ?_⟩
        simp only [Except.ok.injEq] at h
        rw [← h]

/-- C9: the password column is present in the raw stored row of both
templates, but absent from every serialized user: the NestJS response
DTO projection, the user inside a login response, and the Express
`toJSON` output. -/
theorem password_never_serialized :
    (∀ u : Nest.User, "password" ∈ (Nest.userRawFields u).map Prod.fst) ∧
    (∀ u : Nest.User, "password" ∉ (Nest.userResponseFields u).map Prod.fst) ∧
    (∀ (compare : String → String → Bool) (sign : Nest.JwtPayload → String)
       (expiresIn : String) (now : Nat) (dto : Nest.LoginDto)
       (s : Nest.ServiceState) (p : Nest.ServiceState × Nest.AuthResponse),
      Nest.login compare sign expiresIn now dto s = .ok p →
      "password" ∉ p.2.user.map Prod.fst) ∧
    (∀ u : Xp.User, "password" ∈ (Xp.userFields u).map Prod.fst ∧
      "password" ∉ (Xp.toJSON u).map Prod.fst) := by
  refine ⟨?_, ?_, ?_, ?_⟩
  · intro u
    show "password" ∈ ["id", "firstName", "lastName", "email", "password", "role",
      "isActive", "lastLoginAt", "createdAt", "updatedAt", "deletedAt", "version"]
    decide
  · intro u
    show "password" ∉ ["id", "firstName", "lastName", "email", "role",
      "isActive", "lastLoginAt", "createdAt", "updatedAt"]
    decide
  · intro compare sign expiresIn now dto s p hlg
    obtain ⟨u, hu⟩ := login_ok_user hlg
    rw [hu]
    show "password" ∉ ["id", "firstName", "lastName", "email", "role",
      "isActive", "lastLoginAt", "createdAt", "updatedAt"]
    decide
  · intro u
    constructor
    · show "password" ∈ ["id", "email", "password", "firstName", "lastName",
        "isActive", "role", "createdAt", "updatedAt", "deletedAt"]
      decide
    · intro hmem
      rcases List.mem_map.mp hmem with ⟨kv, hkv, heq⟩
      have hne := (List.mem_filter.mp hkv).2
      exact (of_decide_eq_true hne) heq

/-- Witness for C9: a concrete successful login whose serialized user
carries no password key. -/
theorem password_never_serialized_witness :
    "password" ∉ (Nest.generateAuthResponse (fun q => q.email) "1d"
      ⟨3, "Ada", "L", "a@b.c", "pw", .admin, true, none, 0, 0, none, 1⟩).user.map
        Prod.fst :=
  password_never_serialized.2.2.1 (fun a b => a = b) (fun q => q.email) "1d" 5
    ⟨"a@b.c", "pw"⟩
    { users := [⟨3, "Ada", "L", "a@b.c", "pw", .admin, true, none, 0, 0, none, 1⟩],
      nextId := 4 }
    (Nest.updateLastLogin 5 3
      { users := [⟨3, "Ada", "L", "a@b.c", "pw", .admin, true, none, 0, 0, none, 1⟩],
        nextId := 4 },
     Nest.generateAuthResponse (fun q => q.email) "1d"
       ⟨3, "Ada", "L", "a@b.c", "pw", .admin, true, none, 0, 0, none, 1⟩) rfl

/-! ### C10: list query validation bounds -/

/-- C10: the Express service rejects page < 1 or pageSize outside 1..100
with a 400 before any repository access (the result does not depend on
the store, which is also left unchanged since the service mutates
nothing); the NestJS query DTO validation accepts exactly page >= 1 and
limit >= 1, with no upper bound on limit. -/
theorem list_query_validation (page pageSize : Int) (search : Option String)
    (db db2 : List Xp.User)
    (h : page < 1 ∨ pageSize < 1 ∨ 100 < pageSize) :
    (∃ m, Xp.getAllUsers page pageSize search db = .error (.badRequest m) ∧
      HttpError.status (.badRequest m) = 400) ∧
    Xp.getAllUsers page pageSize search db = Xp.getAllUsers page pageSize search db2 ∧
    (∀ l : Int, 1 ≤ l → validateQueryUser ⟨some 1, some l⟩ = true) ∧
    (∀ p l : Int, validateQueryUser ⟨some p, some l⟩ = true ↔ 1 ≤ p ∧ 1 ≤ l) := by
  have hcase : ¬ page < 1 → pageSize < 1 ∨ 100 < pageSize := by
    intro h1
    rcases h with h | h | h
    · exact absurd h h1
    · exact Or.inl h
    · exact Or.inr h
  refine ⟨?_, ?_, ?_, ?_⟩
  · unfold Xp.getAllUsers
    by_cases h1 : page < 1
    · rw [if_pos h1]
      exact ⟨_, rfl, rfl⟩
    · rw [if_neg h1, if_pos (hcase h1)]
      exact ⟨_, rfl, rfl⟩
  · unfold Xp.getAllUsers
    by_cases h1 : page < 1
    · simp only [if_pos h1]
    · simp only [if_neg h1, if_pos (hcase h1)]
  · intro l hl
    simp [validateQueryUser, hl]
  · intro p l
    simp [validateQueryUser]

/-- Witness for C10: page 0 is rejected independently of the store, and
limit one million passes the NestJS validation. -/
theorem list_query_validation_witness :
    Xp.getAllUsers 0 5 none [] =
      Xp.getAllUsers 0 5 none
        [⟨1, "a@b.c", "pw", "Ada", "L", true, .user, 0, 0, none⟩] ∧
    validateQueryUser ⟨some 1, some 1000000⟩ = true := by
  have h := list_query_validation 0 5 none []
    [⟨1, "a@b.c", "pw", "Ada", "L", true, .user, 0, 0, none⟩] (Or.inl (by decide))
  exact ⟨h.2.1, h.2.2.1 1000000 (by decide)⟩

end NestBase
